import Mathlib

/-!
Shallow embedding of the blas-ts kernel library (TypeScript BLAS, double
precision).  Buffers (`Float64Array` / `number[]`) are modelled as total maps
`Int → F` over an abstract scalar type `F`; the arithmetic primitives of the
source (`+`, `-`, `*` on JS numbers) are an explicit operation record, so that
an equality proved for every interpretation of the record captures
bit-for-bit equality of the corresponding IEEE computations, while
instantiating the record with a ring (`Int`, `ℚ`) gives the exact-arithmetic
reading.  JS `for` loops become counted folds; in-place stores become
`Function.update`.
-/

namespace Blas

/-- A flat caller-owned buffer addressed by integer offsets. -/
def Vec (F : Type) : Type := Int → F

/-- In-place store `v[i] = a` of the source. -/
def upd {F : Type} (v : Vec F) (i : Int) (a : F) : Vec F := Function.update v i a

/-- Ascending counted loop: applies `f` at `start, start+1, …, start+k-1`, in
that order (the JS `for (let i = start; i < stop; i++)` with `k = stop - start`
iterations). -/
def foldI {σ : Type} (f : Int → σ → σ) : Nat → Int → σ → σ
  | 0, _, s => s
  | k + 1, start, s => foldI f k (start + 1) (f start s)

/-- Descending counted loop: applies `f` at `start, start-1, …, start-(k-1)`. -/
def foldD {σ : Type} (f : Int → σ → σ) : Nat → Int → σ → σ
  | 0, _, s => s
  | k + 1, start, s => foldD f k (start - 1) (f start s)

/-- Strided ascending counted loop: applies `f` at `start, start+step, …`,
`k` times (the JS `for (let i = start; i < stop; i += step)`). -/
def foldS {σ : Type} (f : Int → σ → σ) (step : Int) : Nat → Int → σ → σ
  | 0, _, s => s
  | k + 1, start, s => foldS f step k (start + step) (f start s)

/-- The abstract scalar operation record: one field per JS arithmetic
primitive the kernels use.  A theorem quantified over `ops` holds for every
interpretation of `+`, `-`, `*`, `0.0`, `1.0` — in particular for IEEE
binary64 — so such an equality is a bit-identity statement. -/
structure Ops (F : Type) where
  add : F → F → F
  sub : F → F → F
  mul : F → F → F
  zero : F
  one : F

/-- The exact-arithmetic interpretation over any commutative ring. -/
def ringOps (F : Type) [CommRing F] : Ops F :=
  { add := fun a b => a + b
    sub := fun a b => a - b
    mul := fun a b => a * b
    zero := 0
    one := 1 }

/-- Exact integer interpretation, used for concrete evaluations. -/
def intOps : Ops Int := ringOps Int

/-! ## Level 1 kernels (`src/level1.ts`)

Each kernel with an unrolled unit-stride branch is split into the two code
paths of the source (`…Unit` for the `incx === 1 && incy === 1` branch,
`…Gen` for the generic strided `else` branch), plus the dispatching function
with its early returns.  JS `%` on positive operands is `Int.tmod`. -/

/-- One daxpy element update: `y[i] = y[i] + alpha * x[i]`. -/
def axpyF {F : Type} (ops : Ops F) (alpha : F) (x : Vec F) (i : Int) (yy : Vec F) : Vec F :=
  upd yy i (ops.add (yy i) (ops.mul alpha (x i)))

/-- The unrolled unit-stride path of daxpy: cleanup of `n % 4` elements, then
blocks of four updates. -/
def daxpyUnit {F : Type} (ops : Ops F) (n : Int) (alpha : F) (x y : Vec F) : Vec F :=
  let m := n.tmod 4
  let y1 := if m ≠ 0 then foldI (axpyF ops alpha x) m.toNat 0 y else y
  if n < 4 then y1
  else
    foldS (fun i yy =>
        let a0 := upd yy i (ops.add (yy i) (ops.mul alpha (x i)))
        let a1 := upd a0 (i + 1) (ops.add (a0 (i + 1)) (ops.mul alpha (x (i + 1))))
        let a2 := upd a1 (i + 2) (ops.add (a1 (i + 2)) (ops.mul alpha (x (i + 2))))
        upd a2 (i + 3) (ops.add (a2 (i + 3)) (ops.mul alpha (x (i + 3)))))
      4 (((n - m + 3) / 4).toNat : Nat) m y1

/-- The generic strided path of daxpy, walking `ix`/`iy` as the source does. -/
def daxpyGen {F : Type} (ops : Ops F) (n : Int) (alpha : F) (x : Vec F) (incx : Int)
    (y : Vec F) (incy : Int) : Vec F :=
  let ix0 : Int := if incx < 0 then (-n + 1) * incx else 0
  let iy0 : Int := if incy < 0 then (-n + 1) * incy else 0
  (foldI (fun _ s => (s.1 + incx, s.2.1 + incy,
      upd s.2.2 s.2.1 (ops.add (s.2.2 s.2.1) (ops.mul alpha (x s.1)))))
    n.toNat 0 ((ix0, iy0, y) : Int × Int × Vec F)).2.2

/-- daxpy: `y := alpha*x + y` with early returns for `n ≤ 0` and `alpha = 0`. -/
def daxpy {F : Type} [DecidableEq F] (ops : Ops F) (n : Int) (alpha : F) (x : Vec F)
    (incx : Int) (y : Vec F) (incy : Int) : Vec F :=
  if n ≤ 0 then y
  else if alpha = ops.zero then y
  else if incx = 1 ∧ incy = 1 then daxpyUnit ops n alpha x y
  else daxpyGen ops n alpha x incx y incy

/-- One dscal element update: `x[i] = alpha * x[i]`. -/
def scalF {F : Type} (ops : Ops F) (alpha : F) (i : Int) (xx : Vec F) : Vec F :=
  upd xx i (ops.mul alpha (xx i))

/-- The unrolled unit-stride path of dscal (block factor 5; the `n < 5` early
return sits inside the `m ≠ 0` cleanup guard, as in the source). -/
def dscalUnit {F : Type} (ops : Ops F) (n : Int) (alpha : F) (x : Vec F) : Vec F :=
  let m := n.tmod 5
  let x1 := if m ≠ 0 then foldI (scalF ops alpha) m.toNat 0 x else x
  if m ≠ 0 ∧ n < 5 then x1
  else
    foldS (fun i xx =>
        let a0 := upd xx i (ops.mul alpha (xx i))
        let a1 := upd a0 (i + 1) (ops.mul alpha (a0 (i + 1)))
        let a2 := upd a1 (i + 2) (ops.mul alpha (a1 (i + 2)))
        let a3 := upd a2 (i + 3) (ops.mul alpha (a2 (i + 3)))
        upd a3 (i + 4) (ops.mul alpha (a3 (i + 4))))
      5 (((n - m + 4) / 5).toNat : Nat) m x1

/-- The generic strided path of dscal: `for (i = 0; i < n*incx; i += incx)`. -/
def dscalGen {F : Type} (ops : Ops F) (n : Int) (alpha : F) (x : Vec F) (incx : Int) : Vec F :=
  let nincx := n * incx
  foldS (scalF ops alpha) incx (((nincx + incx - 1) / incx).toNat : Nat) 0 x

/-- dscal: `x := alpha*x`, with early return for `n ≤ 0`, `incx ≤ 0`, `alpha = 1`. -/
def dscal {F : Type} [DecidableEq F] (ops : Ops F) (n : Int) (alpha : F) (x : Vec F)
    (incx : Int) : Vec F :=
  if n ≤ 0 ∨ incx ≤ 0 ∨ alpha = ops.one then x
  else if incx = 1 then dscalUnit ops n alpha x
  else dscalGen ops n alpha x incx

/-- One dcopy element update: `y[i] = x[i]`. -/
def copyF {F : Type} (x : Vec F) (i : Int) (yy : Vec F) : Vec F := upd yy i (x i)

/-- The unrolled unit-stride path of dcopy (block factor 7). -/
def dcopyUnit {F : Type} (n : Int) (x y : Vec F) : Vec F :=
  let m := n.tmod 7
  let y1 := if m ≠ 0 then foldI (copyF x) m.toNat 0 y else y
  if m ≠ 0 ∧ n < 7 then y1
  else
    foldS (fun i yy =>
        let a0 := upd yy i (x i)
        let a1 := upd a0 (i + 1) (x (i + 1))
        let a2 := upd a1 (i + 2) (x (i + 2))
        let a3 := upd a2 (i + 3) (x (i + 3))
        let a4 := upd a3 (i + 4) (x (i + 4))
        let a5 := upd a4 (i + 5) (x (i + 5))
        upd a5 (i + 6) (x (i + 6)))
      7 (((n - m + 6) / 7).toNat : Nat) m y1

/-- The generic strided path of dcopy. -/
def dcopyGen {F : Type} (n : Int) (x : Vec F) (incx : Int) (y : Vec F) (incy : Int) : Vec F :=
  let ix0 : Int := if incx < 0 then (-n + 1) * incx else 0
  let iy0 : Int := if incy < 0 then (-n + 1) * incy else 0
  (foldI (fun _ s => (s.1 + incx, s.2.1 + incy, upd s.2.2 s.2.1 (x s.1)))
    n.toNat 0 ((ix0, iy0, y) : Int × Int × Vec F)).2.2

/-- dcopy: `y := x`. -/
def dcopy {F : Type} (n : Int) (x : Vec F) (incx : Int) (y : Vec F) (incy : Int) : Vec F :=
  if n ≤ 0 then y
  else if incx = 1 ∧ incy = 1 then dcopyUnit n x y
  else dcopyGen n x incx y incy

/-- One dswap element update on the pair of buffers. -/
def swapF {F : Type} (i : Int) (s : Vec F × Vec F) : Vec F × Vec F :=
  (upd s.1 i (s.2 i), upd s.2 i (s.1 i))

/-- The unrolled unit-stride path of dswap (block factor 3). -/
def dswapUnit {F : Type} (n : Int) (x y : Vec F) : Vec F × Vec F :=
  let m := n.tmod 3
  let s1 := if m ≠ 0 then foldI (swapF : Int → Vec F × Vec F → Vec F × Vec F) m.toNat 0 (x, y)
    else (x, y)
  if m ≠ 0 ∧ n < 3 then s1
  else
    foldS (fun i s =>
        let p0 := (upd s.1 i (s.2 i), upd s.2 i (s.1 i))
        let p1 := (upd p0.1 (i + 1) (p0.2 (i + 1)), upd p0.2 (i + 1) (p0.1 (i + 1)))
        (upd p1.1 (i + 2) (p1.2 (i + 2)), upd p1.2 (i + 2) (p1.1 (i + 2))))
      3 (((n - m + 2) / 3).toNat : Nat) m s1

/-- The generic strided path of dswap. -/
def dswapGen {F : Type} (n : Int) (x : Vec F) (incx : Int) (y : Vec F) (incy : Int) :
    Vec F × Vec F :=
  let ix0 : Int := if incx < 0 then (-n + 1) * incx else 0
  let iy0 : Int := if incy < 0 then (-n + 1) * incy else 0
  (foldI (fun _ (s : Int × Int × (Vec F × Vec F)) => (s.1 + incx, s.2.1 + incy,
      (upd s.2.2.1 s.1 (s.2.2.2 s.2.1), upd s.2.2.2 s.2.1 (s.2.2.1 s.1))))
    n.toNat 0 ((ix0, iy0, (x, y)) : Int × Int × (Vec F × Vec F))).2.2

/-- dswap: exchanges the contents of x and y. -/
def dswap {F : Type} (n : Int) (x : Vec F) (incx : Int) (y : Vec F) (incy : Int) :
    Vec F × Vec F :=
  if n ≤ 0 then (x, y)
  else if incx = 1 ∧ incy = 1 then dswapUnit n x y
  else dswapGen n x incx y incy

/-- One ddot accumulation step: `dtemp = dtemp + x[i] * y[i]`. -/
def dotF {F : Type} (ops : Ops F) (x y : Vec F) (i : Int) (d : F) : F :=
  ops.add d (ops.mul (x i) (y i))

/-- The unrolled unit-stride path of ddot (block factor 5); the five products
of a block are added to the accumulator left to right, exactly as the
source's single `dtemp + … + …` expression associates. -/
def ddotUnit {F : Type} (ops : Ops F) (n : Int) (x y : Vec F) : F :=
  let m := n.tmod 5
  let d1 := if m ≠ 0 then foldI (dotF ops x y) m.toNat 0 ops.zero else ops.zero
  if m ≠ 0 ∧ n < 5 then d1
  else
    foldS (fun i d =>
        ops.add (ops.add (ops.add (ops.add (ops.add d (ops.mul (x i) (y i)))
          (ops.mul (x (i + 1)) (y (i + 1)))) (ops.mul (x (i + 2)) (y (i + 2))))
          (ops.mul (x (i + 3)) (y (i + 3)))) (ops.mul (x (i + 4)) (y (i + 4))))
      5 (((n - m + 4) / 5).toNat : Nat) m d1

/-- The generic strided path of ddot. -/
def ddotGen {F : Type} (ops : Ops F) (n : Int) (x : Vec F) (incx : Int) (y : Vec F)
    (incy : Int) : F :=
  let ix0 : Int := if incx < 0 then (-n + 1) * incx else 0
  let iy0 : Int := if incy < 0 then (-n + 1) * incy else 0
  (foldI (fun _ s => (s.1 + incx, s.2.1 + incy, ops.add s.2.2 (ops.mul (x s.1) (y s.2.1))))
    n.toNat 0 ((ix0, iy0, ops.zero) : Int × Int × F)).2.2

/-- ddot: the dot product `x^T * y`. -/
def ddot {F : Type} (ops : Ops F) (n : Int) (x : Vec F) (incx : Int) (y : Vec F)
    (incy : Int) : F :=
  if n ≤ 0 then ops.zero
  else if incx = 1 ∧ incy = 1 then ddotUnit ops n x y
  else ddotGen ops n x incx y incy

/-- One dasum accumulation step: `dtemp = dtemp + |x[i]|` (`fabs` interprets
the JS `Math.abs`). -/
def asumF {F : Type} (ops : Ops F) (fabs : F → F) (x : Vec F) (i : Int) (d : F) : F :=
  ops.add d (fabs (x i))

/-- The unrolled unit-stride path of dasum (block factor 6).  Note the block
first sums the six absolute values left to right and only then adds the
group total to the accumulator, exactly as `dtemp += a0 + … + a5` parses. -/
def dasumUnit {F : Type} (ops : Ops F) (fabs : F → F) (n : Int) (x : Vec F) : F :=
  let m := n.tmod 6
  let d1 := if m ≠ 0 then foldI (asumF ops fabs x) m.toNat 0 ops.zero else ops.zero
  if m ≠ 0 ∧ n < 6 then d1
  else
    foldS (fun i d =>
        ops.add d (ops.add (ops.add (ops.add (ops.add (ops.add (fabs (x i))
          (fabs (x (i + 1)))) (fabs (x (i + 2)))) (fabs (x (i + 3))))
          (fabs (x (i + 4)))) (fabs (x (i + 5)))))
      6 (((n - m + 5) / 6).toNat : Nat) m d1

/-- The generic strided path of dasum: `for (i = 0; i < n*incx; i += incx)`. -/
def dasumGen {F : Type} (ops : Ops F) (fabs : F → F) (n : Int) (x : Vec F) (incx : Int) : F :=
  let nincx := n * incx
  foldS (asumF ops fabs x) incx (((nincx + incx - 1) / incx).toNat : Nat) 0 ops.zero

/-- dasum: the sum of absolute values, with early return for `n ≤ 0` or
`incx ≤ 0`. -/
def dasum {F : Type} (ops : Ops F) (fabs : F → F) (n : Int) (x : Vec F) (incx : Int) : F :=
  if n ≤ 0 ∨ incx ≤ 0 then ops.zero
  else if incx = 1 then dasumUnit ops fabs n x
  else dasumGen ops fabs n x incx

/-! ## A model of IEEE binary64 rounding on integer-valued data

Used to refute bit-identity of the two dasum paths: the unrolled block sums
its six absolute values before adding the group total to the accumulator,
whereas the generic path adds them to the accumulator one at a time; float
addition is not associative, so the results differ in the last bits. -/

/-- Number of binary digits of `n`, with explicit fuel (exact for
`n < 2 ^ fuel`; the fuel of 1100 covers the whole finite double range). -/
def bitsAux : Nat → Nat → Nat
  | 0, _ => 0
  | fuel + 1, n => if n = 0 then 0 else bitsAux fuel (n / 2) + 1

/-- Round a nonnegative integer to the nearest binary64-representable value
(round to nearest, ties to even significand): exact below `2^53`, otherwise
the significand is cut to 53 bits.  Valid below the overflow threshold. -/
def roundN (n : Nat) : Nat :=
  let b := bitsAux 1100 n
  if b ≤ 53 then n
  else
    let e := b - 53
    let q := n / 2 ^ e
    let r := n % 2 ^ e
    let half := 2 ^ (e - 1)
    if r < half then q * 2 ^ e
    else if half < r then (q + 1) * 2 ^ e
    else (if q % 2 = 0 then q else q + 1) * 2 ^ e

/-- Binary64 rounding of an integer value (rounding is symmetric in sign). -/
def round64 (z : Int) : Int :=
  if z < 0 then -((roundN (-z).toNat : Nat) : Int) else ((roundN z.toNat : Nat) : Int)

/-- IEEE binary64 arithmetic restricted to integer-valued doubles: each
operation rounds its exact result to 53 significant bits.  The dasum
counterexample exercises only `add` (JS `Math.abs` on integers is exact). -/
def f64Ops : Ops Int :=
  { add := fun a b => round64 (a + b)
    sub := fun a b => round64 (a - b)
    mul := fun a b => round64 (a * b)
    zero := 0
    one := 1 }

/-- The buffer `[1e16, 0, 0, 0, 0, 0, 1, 1, 1, 1, 1, 1]`: all entries are
exactly representable doubles; `1e16` lies in `[2^53, 2^54)` where the unit
in the last place is 2, so `1e16 + 1` rounds back down to `1e16` (tie to the
even significand) while `1e16 + 6` is exact. -/
def dasumCtrX : Vec Int := fun i =>
  if i = 0 then 10 ^ 16 else if 6 ≤ i ∧ i ≤ 11 then 1 else 0

/-! ## idamax (`src/level1.ts`)

JS `Math.abs` and `>` on doubles are exact (no rounding), so the kernel is
embedded directly over `ℚ`. -/

/-- idamax: index of the first element of largest absolute value; `0` is the
sentinel for `n < 1` or `incx <= 0`. -/
def idamax (n : Int) (x : Vec ℚ) (incx : Int) : Int :=
  if n < 1 ∨ incx ≤ 0 then 0
  else if n = 1 then 0
  else if incx = 1 then
    (foldI (fun i (s : Int × ℚ) =>
        let absval := |x i|
        if s.2 < absval then (i, absval) else s)
      (n - 1).toNat 1 ((0, |x 0|) : Int × ℚ)).1
  else
    (foldI (fun i (s : Int × ℚ × Int) =>
        let absval := |x s.2.2|
        let s' : Int × ℚ := if s.2.1 < absval then (i, absval) else (s.1, s.2.1)
        (s'.1, s'.2, s.2.2 + incx))
      (n - 1).toNat 1 ((0, |x 0|, incx) : Int × ℚ × Int)).1

/-- The concrete buffer `[1, -5, 3, 2]` of the spec's idamax scenario. -/
def idamaxExX : Vec ℚ := fun i =>
  if i = 0 then 1 else if i = 1 then -5 else if i = 2 then 3 else if i = 3 then 2 else 0

/-! ## drotg (`src/level1.ts`)

The Givens generator also uses `Math.abs`, `Math.max`, `Math.sign`,
`Math.sqrt`, `>` and `/`, so it gets its own operation record; the source's
local names `as`, `bs` are rendered `asc`, `bsc`. -/

/-- Operation record for drotg. -/
structure ROps (F : Type) where
  add : F → F → F
  mul : F → F → F
  div : F → F → F
  abs : F → F
  sqrtF : F → F
  signF : F → F
  maxF : F → F → F
  ltb : F → F → Bool
  zero : F
  one : F

/-- drotg: constructs a Givens rotation, returning `(c, s, r, z)`. -/
def drotg {F : Type} [DecidableEq F] (R : ROps F) (a b : F) : F × F × F × F :=
  let anorm := R.abs a
  let bnorm := R.abs b
  if bnorm = R.zero then (R.one, R.zero, a, R.zero)
  else if anorm = R.zero then (R.zero, R.one, b, R.one)
  else
    let scale := R.maxF anorm bnorm
    let sigma := if R.ltb bnorm anorm then R.signF a else R.signF b
    let asc := R.div a scale
    let bsc := R.div b scale
    let r := R.mul (R.mul sigma scale) (R.sqrtF (R.add (R.mul asc asc) (R.mul bsc bsc)))
    let c := R.div a r
    let s := R.div b r
    let z := if R.ltb bnorm anorm then s
      else if c ≠ R.zero then R.div R.one c else R.one
    (c, s, r, z)

/-- The real-number interpretation of the drotg operations (JS `>` becomes
the decidable strict order on ℝ). -/
noncomputable def realROps : ROps ℝ :=
  { add := fun u v => u + v
    mul := fun u v => u * v
    div := fun u v => u / v
    abs := fun u => |u|
    sqrtF := Real.sqrt
    signF := Real.sign
    maxF := fun u v => max u v
    ltb := fun u v => decide (u < v)
    zero := 0
    one := 1 }

/-! ## Level 2 (`src/level2.ts`)

TS numeric enums are plain numbers at runtime, so the mode flags are
embedded as `Int` constants with the declaration order of `types.ts`
(`BLASTranspose`, `BLASUplo`, `BLASDiag`, `BLASSide`); validation that
rejects "invalid enum values" then checks membership, as the source does.
Routines that `throw` return `Except String`. -/

/-- BLASTranspose.NoTranspose. -/
def NoTranspose : Int := 0

/-- BLASTranspose.Transpose. -/
def Transpose : Int := 1

/-- BLASTranspose.ConjugateTranspose. -/
def ConjugateTranspose : Int := 2

/-- BLASUplo.Upper. -/
def Upper : Int := 0

/-- BLASUplo.Lower. -/
def Lower : Int := 1

/-- BLASDiag.NonUnit. -/
def NonUnit : Int := 0

/-- BLASDiag.Unit. -/
def UnitDiag : Int := 1

/-- Side.Left. -/
def LeftSide : Int := 0

/-- Side.Right. -/
def RightSide : Int := 1

/-- The computation of dgemv after its single validation check: quick
return, then `y := beta*y`, then the alpha*op(A)*x accumulation. -/
def dgemvBody {F : Type} [DecidableEq F] (ops : Ops F) (trans : Int) (m n : Int) (alpha : F)
    (A : Vec F) (ldA : Int) (x : Vec F) (incx : Int) (beta : F) (y : Vec F) (incy : Int) :
    Vec F :=
  if m = 0 ∨ n = 0 ∨ (alpha = ops.zero ∧ beta = ops.one) then y
  else
    let lenx := if trans = NoTranspose then n else m
    let leny := if trans = NoTranspose then m else n
    let kx : Int := if incx > 0 then 0 else -(lenx - 1) * incx
    let ky : Int := if incy > 0 then 0 else -(leny - 1) * incy
    let y1 :=
      if beta ≠ ops.one then
        if incy = 1 then
          if beta = ops.zero then
            foldI (fun i yy => upd yy i ops.zero) leny.toNat 0 y
          else
            foldI (fun i yy => upd yy i (ops.mul beta (yy i))) leny.toNat 0 y
        else
          if beta = ops.zero then
            (foldI (fun _ (s : Int × Vec F) => (s.1 + incy, upd s.2 s.1 ops.zero))
              leny.toNat 0 ((ky, y) : Int × Vec F)).2
          else
            (foldI (fun _ (s : Int × Vec F) =>
                (s.1 + incy, upd s.2 s.1 (ops.mul beta (s.2 s.1))))
              leny.toNat 0 ((ky, y) : Int × Vec F)).2
      else y
    if alpha = ops.zero then y1
    else if trans = NoTranspose then
      if incy = 1 then
        (foldI (fun j (s : Int × Vec F) =>
            let temp := ops.mul alpha (x s.1)
            (s.1 + incx,
             foldI (fun i yy => upd yy i (ops.add (yy i) (ops.mul temp (A (i + j * ldA)))))
               m.toNat 0 s.2))
          n.toNat 0 ((kx, y1) : Int × Vec F)).2
      else
        (foldI (fun j (s : Int × Vec F) =>
            let temp := ops.mul alpha (x s.1)
            (s.1 + incx,
             (foldI (fun i (t : Int × Vec F) =>
                 (t.1 + incy, upd t.2 t.1 (ops.add (t.2 t.1) (ops.mul temp (A (i + j * ldA))))))
               m.toNat 0 ((ky, s.2) : Int × Vec F)).2))
          n.toNat 0 ((kx, y1) : Int × Vec F)).2
    else
      if incx = 1 then
        (foldI (fun j (s : Int × Vec F) =>
            let temp := foldI (fun i d => ops.add d (ops.mul (A (i + j * ldA)) (x i)))
              m.toNat 0 ops.zero
            (s.1 + incy, upd s.2 s.1 (ops.add (s.2 s.1) (ops.mul alpha temp))))
          n.toNat 0 ((ky, y1) : Int × Vec F)).2
      else
        (foldI (fun j (s : Int × Vec F) =>
            let temp := (foldI (fun i (t : Int × F) =>
                (t.1 + incx, ops.add t.2 (ops.mul (A (i + j * ldA)) (x t.1))))
              m.toNat 0 ((kx, ops.zero) : Int × F)).2
            (s.1 + incy, upd s.2 s.1 (ops.add (s.2 s.1) (ops.mul alpha temp))))
          n.toNat 0 ((ky, y1) : Int × Vec F)).2

/-- dgemv: `y := alpha*op(A)*x + beta*y`.  The source validates only `ldA`
(no dimension or stride checks). -/
def dgemv {F : Type} [DecidableEq F] (ops : Ops F) (trans : Int) (m n : Int) (alpha : F)
    (A : Vec F) (ldA : Int) (x : Vec F) (incx : Int) (beta : F) (y : Vec F) (incy : Int) :
    Except String (Vec F) :=
  if ldA < max 1 m then .error "Invalid ldA: must be at least max(1, m)"
  else .ok (dgemvBody ops trans m n alpha A ldA x incx beta y incy)

/-- dsymv: `y := alpha*A*x + beta*y`, A symmetric with one stored triangle. -/
def dsymv {F : Type} [DecidableEq F] (ops : Ops F) (uplo : Int) (n : Int) (alpha : F)
    (A : Vec F) (ldA : Int) (x : Vec F) (incx : Int) (beta : F) (y : Vec F) (incy : Int) :
    Except String (Vec F) :=
  if uplo ≠ Upper ∧ uplo ≠ Lower then .error "DSYMV: Invalid UPLO parameter"
  else if n < 0 then .error "DSYMV: N must be >= 0"
  else if ldA < max 1 n then .error "DSYMV: LDA must be >= max(1,N)"
  else if incx = 0 then .error "DSYMV: INCX must not be zero"
  else if incy = 0 then .error "DSYMV: INCY must not be zero"
  else if n = 0 ∨ (alpha = ops.zero ∧ beta = ops.one) then .ok y
  else
    let kx : Int := if incx > 0 then 0 else -(n - 1) * incx
    let ky : Int := if incy > 0 then 0 else -(n - 1) * incy
    let y1 :=
      if beta ≠ ops.one then
        if incy = 1 then
          if beta = ops.zero then
            foldI (fun i yy => upd yy i ops.zero) n.toNat 0 y
          else
            foldI (fun i yy => upd yy i (ops.mul beta (yy i))) n.toNat 0 y
        else
          if beta = ops.zero then
            (foldI (fun _ (s : Int × Vec F) => (s.1 + incy, upd s.2 s.1 ops.zero))
              n.toNat 0 ((ky, y) : Int × Vec F)).2
          else
            (foldI (fun _ (s : Int × Vec F) =>
                (s.1 + incy, upd s.2 s.1 (ops.mul beta (s.2 s.1))))
              n.toNat 0 ((ky, y) : Int × Vec F)).2
      else y
    if alpha = ops.zero then .ok y1
    else if uplo = Upper then
      if incx = 1 ∧ incy = 1 then
        .ok (foldI (fun j yy =>
            let temp1 := ops.mul alpha (x j)
            let p := foldI (fun i (t : Vec F × F) =>
                (upd t.1 i (ops.add (t.1 i) (ops.mul temp1 (A (i + j * ldA)))),
                 ops.add t.2 (ops.mul (A (i + j * ldA)) (x i))))
              j.toNat 0 ((yy, ops.zero) : Vec F × F)
            upd p.1 j (ops.add (ops.add (p.1 j) (ops.mul temp1 (A (j + j * ldA))))
              (ops.mul alpha p.2)))
          n.toNat 0 y1)
      else
        .ok ((foldI (fun j (s : Int × Int × Vec F) =>
            let temp1 := ops.mul alpha (x s.1)
            let p := foldI (fun i (t : Int × Int × Vec F × F) =>
                (t.1 + incx, t.2.1 + incy,
                 upd t.2.2.1 t.2.1 (ops.add (t.2.2.1 t.2.1) (ops.mul temp1 (A (i + j * ldA)))),
                 ops.add t.2.2.2 (ops.mul (A (i + j * ldA)) (x t.1))))
              j.toNat 0 ((kx, ky, s.2.2, ops.zero) : Int × Int × Vec F × F)
            (s.1 + incx, s.2.1 + incy,
             upd p.2.2.1 s.2.1 (ops.add (ops.add (p.2.2.1 s.2.1)
               (ops.mul temp1 (A (j + j * ldA)))) (ops.mul alpha p.2.2.2))))
          n.toNat 0 ((kx, ky, y1) : Int × Int × Vec F)).2.2)
    else
      if incx = 1 ∧ incy = 1 then
        .ok (foldI (fun j yy =>
            let temp1 := ops.mul alpha (x j)
            let yy0 := upd yy j (ops.add (yy j) (ops.mul temp1 (A (j + j * ldA))))
            let p := foldI (fun i (t : Vec F × F) =>
                (upd t.1 i (ops.add (t.1 i) (ops.mul temp1 (A (i + j * ldA)))),
                 ops.add t.2 (ops.mul (A (i + j * ldA)) (x i))))
              (n - (j + 1)).toNat (j + 1) ((yy0, ops.zero) : Vec F × F)
            upd p.1 j (ops.add (p.1 j) (ops.mul alpha p.2)))
          n.toNat 0 y1)
      else
        .ok ((foldI (fun j (s : Int × Int × Vec F) =>
            let temp1 := ops.mul alpha (x s.1)
            let yy0 := upd s.2.2 s.2.1 (ops.add (s.2.2 s.2.1) (ops.mul temp1 (A (j + j * ldA))))
            let p := foldI (fun i (t : Int × Int × Vec F × F) =>
                (t.1 + incx, t.2.1 + incy,
                 upd t.2.2.1 (t.2.1 + incy)
                   (ops.add (t.2.2.1 (t.2.1 + incy)) (ops.mul temp1 (A (i + j * ldA)))),
                 ops.add t.2.2.2 (ops.mul (A (i + j * ldA)) (x (t.1 + incx)))))
              (n - (j + 1)).toNat (j + 1) ((s.1, s.2.1, yy0, ops.zero) : Int × Int × Vec F × F)
            (s.1 + incx, s.2.1 + incy,
             upd p.2.2.1 s.2.1 (ops.add (p.2.2.1 s.2.1) (ops.mul alpha p.2.2.2))))
          n.toNat 0 ((kx, ky, y1) : Int × Int × Vec F)).2.2)

/-- dger: the rank-1 update `A := alpha*x*y^T + A`. -/
def dger {F : Type} [DecidableEq F] (ops : Ops F) (m n : Int) (alpha : F)
    (x : Vec F) (incx : Int) (y : Vec F) (incy : Int) (A : Vec F) (ldA : Int) :
    Except String (Vec F) :=
  if m < 0 then .error "DGER: M must be >= 0"
  else if n < 0 then .error "DGER: N must be >= 0"
  else if incx = 0 then .error "DGER: INCX must not be zero"
  else if incy = 0 then .error "DGER: INCY must not be zero"
  else if ldA < max 1 m then .error "DGER: LDA must be >= max(1,M)"
  else if m = 0 ∨ n = 0 ∨ alpha = ops.zero then .ok A
  else
    let jy0 : Int := if incy > 0 then 0 else -(n - 1) * incy
    if incx = 1 then
      .ok ((foldI (fun j (s : Int × Vec F) =>
          (s.1 + incy,
           if y s.1 ≠ ops.zero then
             let temp := ops.mul alpha (y s.1)
             foldI (fun i aa => upd aa (i + j * ldA)
                 (ops.add (aa (i + j * ldA)) (ops.mul (x i) temp)))
               m.toNat 0 s.2
           else s.2))
        n.toNat 0 ((jy0, A) : Int × Vec F)).2)
    else
      let kx : Int := if incx > 0 then 0 else -(m - 1) * incx
      .ok ((foldI (fun j (s : Int × Vec F) =>
          (s.1 + incy,
           if y s.1 ≠ ops.zero then
             let temp := ops.mul alpha (y s.1)
             (foldI (fun i (t : Int × Vec F) =>
                 (t.1 + incx, upd t.2 (i + j * ldA)
                   (ops.add (t.2 (i + j * ldA)) (ops.mul (x t.1) temp))))
               m.toNat 0 ((kx, s.2) : Int × Vec F)).2
           else s.2))
        n.toNat 0 ((jy0, A) : Int × Vec F)).2)

/-- dsyr: the symmetric rank-1 update `A := alpha*x*x^T + A`, one triangle. -/
def dsyr {F : Type} [DecidableEq F] (ops : Ops F) (uplo : Int) (n : Int) (alpha : F)
    (x : Vec F) (incx : Int) (A : Vec F) (ldA : Int) : Except String (Vec F) :=
  if uplo ≠ Upper ∧ uplo ≠ Lower then .error "DSYR: Invalid UPLO parameter"
  else if n < 0 then .error "DSYR: N must be >= 0"
  else if incx = 0 then .error "DSYR: INCX must not be zero"
  else if ldA < max 1 n then .error "DSYR: LDA must be >= max(1,N)"
  else if n = 0 ∨ alpha = ops.zero then .ok A
  else
    let kx : Int := if incx ≤ 0 then -(n - 1) * incx else 0
    if uplo = Upper then
      if incx = 1 then
        .ok (foldI (fun j aa =>
            if x j ≠ ops.zero then
              let temp := ops.mul alpha (x j)
              foldI (fun i a2 => upd a2 (i + j * ldA)
                  (ops.add (a2 (i + j * ldA)) (ops.mul (x i) temp)))
                (j + 1).toNat 0 aa
            else aa)
          n.toNat 0 A)
      else
        .ok ((foldI (fun j (s : Int × Vec F) =>
            (s.1 + incx,
             if x s.1 ≠ ops.zero then
               let temp := ops.mul alpha (x s.1)
               (foldI (fun i (t : Int × Vec F) =>
                   (t.1 + incx, upd t.2 (i + j * ldA)
                     (ops.add (t.2 (i + j * ldA)) (ops.mul (x t.1) temp))))
                 (j + 1).toNat 0 ((kx, s.2) : Int × Vec F)).2
             else s.2))
          n.toNat 0 ((kx, A) : Int × Vec F)).2)
    else
      if incx = 1 then
        .ok (foldI (fun j aa =>
            if x j ≠ ops.zero then
              let temp := ops.mul alpha (x j)
              foldI (fun i a2 => upd a2 (i + j * ldA)
                  (ops.add (a2 (i + j * ldA)) (ops.mul (x i) temp)))
                (n - j).toNat j aa
            else aa)
          n.toNat 0 A)
      else
        .ok ((foldI (fun j (s : Int × Vec F) =>
            (s.1 + incx,
             if x s.1 ≠ ops.zero then
               let temp := ops.mul alpha (x s.1)
               (foldI (fun i (t : Int × Vec F) =>
                   (t.1 + incx, upd t.2 (i + j * ldA)
                     (ops.add (t.2 (i + j * ldA)) (ops.mul (x t.1) temp))))
                 (n - j).toNat j ((s.1, s.2) : Int × Vec F)).2
             else s.2))
          n.toNat 0 ((kx, A) : Int × Vec F)).2)

/-- dsyr2: the symmetric rank-2 update `A := alpha*x*y^T + alpha*y*x^T + A`. -/
def dsyr2 {F : Type} [DecidableEq F] (ops : Ops F) (uplo : Int) (n : Int) (alpha : F)
    (x : Vec F) (incx : Int) (y : Vec F) (incy : Int) (A : Vec F) (ldA : Int) :
    Except String (Vec F) :=
  if uplo ≠ Upper ∧ uplo ≠ Lower then .error "DSYR2: Invalid UPLO parameter"
  else if n < 0 then .error "DSYR2: N must be >= 0"
  else if incx = 0 then .error "DSYR2: INCX must not be zero"
  else if incy = 0 then .error "DSYR2: INCY must not be zero"
  else if ldA < max 1 n then .error "DSYR2: LDA must be >= max(1,N)"
  else if n = 0 ∨ alpha = ops.zero then .ok A
  else
    let kx : Int := if incx ≠ 1 ∨ incy ≠ 1 then (if incx > 0 then 0 else -(n - 1) * incx) else 0
    let ky : Int := if incx ≠ 1 ∨ incy ≠ 1 then (if incy > 0 then 0 else -(n - 1) * incy) else 0
    if uplo = Upper then
      if incx = 1 ∧ incy = 1 then
        .ok (foldI (fun j aa =>
            if x j ≠ ops.zero ∨ y j ≠ ops.zero then
              let temp1 := ops.mul alpha (y j)
              let temp2 := ops.mul alpha (x j)
              foldI (fun i a2 => upd a2 (i + j * ldA)
                  (ops.add (ops.add (a2 (i + j * ldA))
                    (ops.mul (x i) temp1)) (ops.mul (y i) temp2)))
                (j + 1).toNat 0 aa
            else aa)
          n.toNat 0 A)
      else
        .ok ((foldI (fun j (s : Int × Int × Vec F) =>
            (s.1 + incx, s.2.1 + incy,
             if x s.1 ≠ ops.zero ∨ y s.2.1 ≠ ops.zero then
               let temp1 := ops.mul alpha (y s.2.1)
               let temp2 := ops.mul alpha (x s.1)
               (foldI (fun i (t : Int × Int × Vec F) =>
                   (t.1 + incx, t.2.1 + incy, upd t.2.2 (i + j * ldA)
                     (ops.add (ops.add (t.2.2 (i + j * ldA))
                       (ops.mul (x t.1) temp1)) (ops.mul (y t.2.1) temp2))))
                 (j + 1).toNat 0 ((kx, ky, s.2.2) : Int × Int × Vec F)).2.2
             else s.2.2))
          n.toNat 0 ((kx, ky, A) : Int × Int × Vec F)).2.2)
    else
      if incx = 1 ∧ incy = 1 then
        .ok (foldI (fun j aa =>
            if x j ≠ ops.zero ∨ y j ≠ ops.zero then
              let temp1 := ops.mul alpha (y j)
              let temp2 := ops.mul alpha (x j)
              foldI (fun i a2 => upd a2 (i + j * ldA)
                  (ops.add (ops.add (a2 (i + j * ldA))
                    (ops.mul (x i) temp1)) (ops.mul (y i) temp2)))
                (n - j).toNat j aa
            else aa)
          n.toNat 0 A)
      else
        .ok ((foldI (fun j (s : Int × Int × Vec F) =>
            (s.1 + incx, s.2.1 + incy,
             if x s.1 ≠ ops.zero ∨ y s.2.1 ≠ ops.zero then
               let temp1 := ops.mul alpha (y s.2.1)
               let temp2 := ops.mul alpha (x s.1)
               (foldI (fun i (t : Int × Int × Vec F) =>
                   (t.1 + incx, t.2.1 + incy, upd t.2.2 (i + j * ldA)
                     (ops.add (ops.add (t.2.2 (i + j * ldA))
                       (ops.mul (x t.1) temp1)) (ops.mul (y t.2.1) temp2))))
                 (n - j).toNat j ((s.1, s.2.1, s.2.2) : Int × Int × Vec F)).2.2
             else s.2.2))
          n.toNat 0 ((kx, ky, A) : Int × Int × Vec F)).2.2)

/-- dtrmv path: NoTranspose, Upper, unit stride. -/
def trmvUN1 {F : Type} [DecidableEq F] (ops : Ops F) (nounit : Bool) (n : Int)
    (A : Vec F) (ldA : Int) (x : Vec F) : Vec F :=
  foldI (fun j xx =>
    if xx j ≠ ops.zero then
      let temp := xx j
      let x1 := foldI (fun i x2 =>
          upd x2 i (ops.add (x2 i) (ops.mul temp (A (i + j * ldA))))) j.toNat 0 xx
      if nounit then upd x1 j (ops.mul (x1 j) (A (j + j * ldA))) else x1
    else xx) n.toNat 0 x

/-- dtrmv path: NoTranspose, Upper, generic stride. -/
def trmvUNg {F : Type} [DecidableEq F] (ops : Ops F) (nounit : Bool) (n : Int)
    (A : Vec F) (ldA : Int) (x : Vec F) (incx kx : Int) : Vec F :=
  (foldI (fun j (s : Int × Vec F) =>
    (s.1 + incx,
     if s.2 s.1 ≠ ops.zero then
       let temp := s.2 s.1
       let x1 := (foldI (fun i (t : Int × Vec F) =>
           (t.1 + incx, upd t.2 t.1 (ops.add (t.2 t.1) (ops.mul temp (A (i + j * ldA))))))
         j.toNat 0 ((kx, s.2) : Int × Vec F)).2
       if nounit then upd x1 s.1 (ops.mul (x1 s.1) (A (j + j * ldA))) else x1
     else s.2)) n.toNat 0 ((kx, x) : Int × Vec F)).2

/-- dtrmv path: NoTranspose, Lower, unit stride. -/
def trmvLN1 {F : Type} [DecidableEq F] (ops : Ops F) (nounit : Bool) (n : Int)
    (A : Vec F) (ldA : Int) (x : Vec F) : Vec F :=
  foldD (fun j xx =>
    if xx j ≠ ops.zero then
      let temp := xx j
      let x1 := foldD (fun i x2 =>
          upd x2 i (ops.add (x2 i) (ops.mul temp (A (i + j * ldA)))))
        (n - 1 - j).toNat (n - 1) xx
      if nounit then upd x1 j (ops.mul (x1 j) (A (j + j * ldA))) else x1
    else xx) n.toNat (n - 1) x

/-- dtrmv path: NoTranspose, Lower, generic stride (the source first moves
`kx` to the last logical element). -/
def trmvLNg {F : Type} [DecidableEq F] (ops : Ops F) (nounit : Bool) (n : Int)
    (A : Vec F) (ldA : Int) (x : Vec F) (incx kx : Int) : Vec F :=
  let kx2 := kx + (n - 1) * incx
  (foldD (fun j (s : Int × Vec F) =>
    (s.1 - incx,
     if s.2 s.1 ≠ ops.zero then
       let temp := s.2 s.1
       let x1 := (foldD (fun i (t : Int × Vec F) =>
           (t.1 - incx, upd t.2 t.1 (ops.add (t.2 t.1) (ops.mul temp (A (i + j * ldA))))))
         (n - 1 - j).toNat (n - 1) ((kx2, s.2) : Int × Vec F)).2
       if nounit then upd x1 s.1 (ops.mul (x1 s.1) (A (j + j * ldA))) else x1
     else s.2)) n.toNat (n - 1) ((kx2, x) : Int × Vec F)).2

/-- dtrmv path: Transpose, Upper, unit stride. -/
def trmvUT1 {F : Type} [DecidableEq F] (ops : Ops F) (nounit : Bool) (n : Int)
    (A : Vec F) (ldA : Int) (x : Vec F) : Vec F :=
  foldD (fun j xx =>
    let temp1 := if nounit then ops.mul (xx j) (A (j + j * ldA)) else xx j
    let temp2 := foldD (fun i d => ops.add d (ops.mul (A (i + j * ldA)) (xx i)))
      j.toNat (j - 1) temp1
    upd xx j temp2) n.toNat (n - 1) x

/-- dtrmv path: Transpose, Upper, generic stride (`ix` decremented before
each read). -/
def trmvUTg {F : Type} [DecidableEq F] (ops : Ops F) (nounit : Bool) (n : Int)
    (A : Vec F) (ldA : Int) (x : Vec F) (incx kx : Int) : Vec F :=
  (foldD (fun j (s : Int × Vec F) =>
    let xx := s.2
    let temp1 := if nounit then ops.mul (xx s.1) (A (j + j * ldA)) else xx s.1
    let p := foldD (fun i (t : Int × F) =>
        (t.1 - incx, ops.add t.2 (ops.mul (A (i + j * ldA)) (xx (t.1 - incx)))))
      j.toNat (j - 1) ((s.1, temp1) : Int × F)
    (s.1 - incx, upd xx s.1 p.2)) n.toNat (n - 1) ((kx + (n - 1) * incx, x) : Int × Vec F)).2

/-- dtrmv path: Transpose, Lower, unit stride. -/
def trmvLT1 {F : Type} [DecidableEq F] (ops : Ops F) (nounit : Bool) (n : Int)
    (A : Vec F) (ldA : Int) (x : Vec F) : Vec F :=
  foldI (fun j xx =>
    let temp1 := if nounit then ops.mul (xx j) (A (j + j * ldA)) else xx j
    let temp2 := foldI (fun i d => ops.add d (ops.mul (A (i + j * ldA)) (xx i)))
      (n - (j + 1)).toNat (j + 1) temp1
    upd xx j temp2) n.toNat 0 x

/-- dtrmv path: Transpose, Lower, generic stride (`ix` incremented before
each read). -/
def trmvLTg {F : Type} [DecidableEq F] (ops : Ops F) (nounit : Bool) (n : Int)
    (A : Vec F) (ldA : Int) (x : Vec F) (incx kx : Int) : Vec F :=
  (foldI (fun j (s : Int × Vec F) =>
    let xx := s.2
    let temp1 := if nounit then ops.mul (xx s.1) (A (j + j * ldA)) else xx s.1
    let p := foldI (fun i (t : Int × F) =>
        (t.1 + incx, ops.add t.2 (ops.mul (A (i + j * ldA)) (xx (t.1 + incx)))))
      (n - (j + 1)).toNat (j + 1) ((s.1, temp1) : Int × F)
    (s.1 + incx, upd xx s.1 p.2)) n.toNat 0 ((kx, x) : Int × Vec F)).2

/-- dtrmv: `x := op(A)*x` for triangular A; full validation as in the
source, then dispatch over the eight (trans, uplo, stride) paths. -/
def dtrmv {F : Type} [DecidableEq F] (ops : Ops F) (uplo trans diag : Int) (n : Int)
    (A : Vec F) (ldA : Int) (x : Vec F) (incx : Int) : Except String (Vec F) :=
  if uplo ≠ Upper ∧ uplo ≠ Lower then .error "DTRMV: Invalid UPLO parameter"
  else if trans ≠ NoTranspose ∧ trans ≠ Transpose ∧ trans ≠ ConjugateTranspose then
    .error "DTRMV: Invalid TRANS parameter"
  else if diag ≠ UnitDiag ∧ diag ≠ NonUnit then .error "DTRMV: Invalid DIAG parameter"
  else if n < 0 then .error "DTRMV: N must be >= 0"
  else if ldA < max 1 n then .error "DTRMV: LDA must be >= max(1,N)"
  else if incx = 0 then .error "DTRMV: INCX must not be zero"
  else if n = 0 then .ok x
  else
    let nounit := decide (diag = NonUnit)
    let kx : Int := if incx ≤ 0 then -(n - 1) * incx else 0
    if trans = NoTranspose then
      if uplo = Upper then
        if incx = 1 then .ok (trmvUN1 ops nounit n A ldA x)
        else .ok (trmvUNg ops nounit n A ldA x incx kx)
      else
        if incx = 1 then .ok (trmvLN1 ops nounit n A ldA x)
        else .ok (trmvLNg ops nounit n A ldA x incx kx)
    else
      if uplo = Upper then
        if incx = 1 then .ok (trmvUT1 ops nounit n A ldA x)
        else .ok (trmvUTg ops nounit n A ldA x incx kx)
      else
        if incx = 1 then .ok (trmvLT1 ops nounit n A ldA x)
        else .ok (trmvLTg ops nounit n A ldA x incx kx)

/-- dtrsv path: NoTranspose, Upper, unit stride (backward substitution). -/
def trsvUN1 {F : Type} [DecidableEq F] (ops : Ops F) (fdiv : F → F → F) (nounit : Bool)
    (n : Int) (A : Vec F) (ldA : Int) (x : Vec F) : Vec F :=
  foldD (fun j xx =>
    if xx j ≠ ops.zero then
      let x1 := if nounit then upd xx j (fdiv (xx j) (A (j + j * ldA))) else xx
      let temp := x1 j
      foldD (fun i x2 => upd x2 i (ops.sub (x2 i) (ops.mul temp (A (i + j * ldA)))))
        j.toNat (j - 1) x1
    else xx) n.toNat (n - 1) x

/-- dtrsv path: NoTranspose, Upper, generic stride. -/
def trsvUNg {F : Type} [DecidableEq F] (ops : Ops F) (fdiv : F → F → F) (nounit : Bool)
    (n : Int) (A : Vec F) (ldA : Int) (x : Vec F) (incx kx : Int) : Vec F :=
  (foldD (fun j (s : Int × Vec F) =>
    (s.1 - incx,
     if s.2 s.1 ≠ ops.zero then
       let x1 := if nounit then upd s.2 s.1 (fdiv (s.2 s.1) (A (j + j * ldA))) else s.2
       let temp := x1 s.1
       (foldD (fun i (t : Int × Vec F) =>
           (t.1 - incx, upd t.2 (t.1 - incx)
             (ops.sub (t.2 (t.1 - incx)) (ops.mul temp (A (i + j * ldA))))))
         j.toNat (j - 1) ((s.1, x1) : Int × Vec F)).2
     else s.2)) n.toNat (n - 1) ((kx + (n - 1) * incx, x) : Int × Vec F)).2

/-- dtrsv path: NoTranspose, Lower, unit stride (forward substitution). -/
def trsvLN1 {F : Type} [DecidableEq F] (ops : Ops F) (fdiv : F → F → F) (nounit : Bool)
    (n : Int) (A : Vec F) (ldA : Int) (x : Vec F) : Vec F :=
  foldI (fun j xx =>
    if xx j ≠ ops.zero then
      let x1 := if nounit then upd xx j (fdiv (xx j) (A (j + j * ldA))) else xx
      let temp := x1 j
      foldI (fun i x2 => upd x2 i (ops.sub (x2 i) (ops.mul temp (A (i + j * ldA)))))
        (n - (j + 1)).toNat (j + 1) x1
    else xx) n.toNat 0 x

/-- dtrsv path: NoTranspose, Lower, generic stride. -/
def trsvLNg {F : Type} [DecidableEq F] (ops : Ops F) (fdiv : F → F → F) (nounit : Bool)
    (n : Int) (A : Vec F) (ldA : Int) (x : Vec F) (incx kx : Int) : Vec F :=
  (foldI (fun j (s : Int × Vec F) =>
    (s.1 + incx,
     if s.2 s.1 ≠ ops.zero then
       let x1 := if nounit then upd s.2 s.1 (fdiv (s.2 s.1) (A (j + j * ldA))) else s.2
       let temp := x1 s.1
       (foldI (fun i (t : Int × Vec F) =>
           (t.1 + incx, upd t.2 (t.1 + incx)
             (ops.sub (t.2 (t.1 + incx)) (ops.mul temp (A (i + j * ldA))))))
         (n - (j + 1)).toNat (j + 1) ((s.1, x1) : Int × Vec F)).2
     else s.2)) n.toNat 0 ((kx, x) : Int × Vec F)).2

/-- dtrsv path: Transpose, Upper, unit stride (forward substitution). -/
def trsvUT1 {F : Type} [DecidableEq F] (ops : Ops F) (fdiv : F → F → F) (nounit : Bool)
    (n : Int) (A : Vec F) (ldA : Int) (x : Vec F) : Vec F :=
  foldI (fun j xx =>
    let t0 := foldI (fun i d => ops.sub d (ops.mul (A (i + j * ldA)) (xx i)))
      j.toNat 0 (xx j)
    let t1 := if nounit then fdiv t0 (A (j + j * ldA)) else t0
    upd xx j t1) n.toNat 0 x

/-- dtrsv path: Transpose, Upper, generic stride. -/
def trsvUTg {F : Type} [DecidableEq F] (ops : Ops F) (fdiv : F → F → F) (nounit : Bool)
    (n : Int) (A : Vec F) (ldA : Int) (x : Vec F) (incx kx : Int) : Vec F :=
  (foldI (fun j (s : Int × Vec F) =>
    let xx := s.2
    let p := foldI (fun i (t : Int × F) =>
        (t.1 + incx, ops.sub t.2 (ops.mul (A (i + j * ldA)) (xx t.1))))
      j.toNat 0 ((kx, xx s.1) : Int × F)
    let t1 := if nounit then fdiv p.2 (A (j + j * ldA)) else p.2
    (s.1 + incx, upd xx s.1 t1)) n.toNat 0 ((kx, x) : Int × Vec F)).2

/-- dtrsv path: Transpose, Lower, unit stride (backward substitution). -/
def trsvLT1 {F : Type} [DecidableEq F] (ops : Ops F) (fdiv : F → F → F) (nounit : Bool)
    (n : Int) (A : Vec F) (ldA : Int) (x : Vec F) : Vec F :=
  foldD (fun j xx =>
    let t0 := foldD (fun i d => ops.sub d (ops.mul (A (i + j * ldA)) (xx i)))
      (n - 1 - j).toNat (n - 1) (xx j)
    let t1 := if nounit then fdiv t0 (A (j + j * ldA)) else t0
    upd xx j t1) n.toNat (n - 1) x

/-- dtrsv path: Transpose, Lower, generic stride (the source first moves
`kx` to the last logical element; `ix` starts there for every column). -/
def trsvLTg {F : Type} [DecidableEq F] (ops : Ops F) (fdiv : F → F → F) (nounit : Bool)
    (n : Int) (A : Vec F) (ldA : Int) (x : Vec F) (incx kx : Int) : Vec F :=
  let kx2 := kx + (n - 1) * incx
  (foldD (fun j (s : Int × Vec F) =>
    let xx := s.2
    let p := foldD (fun i (t : Int × F) =>
        (t.1 - incx, ops.sub t.2 (ops.mul (A (i + j * ldA)) (xx t.1))))
      (n - 1 - j).toNat (n - 1) ((kx2, xx s.1) : Int × F)
    let t1 := if nounit then fdiv p.2 (A (j + j * ldA)) else p.2
    (s.1 - incx, upd xx s.1 t1)) n.toNat (n - 1) ((kx2, x) : Int × Vec F)).2

/-- dtrsv: solves `op(A)*x = b` in place by substitution. -/
def dtrsv {F : Type} [DecidableEq F] (ops : Ops F) (fdiv : F → F → F)
    (uplo trans diag : Int) (n : Int) (A : Vec F) (ldA : Int) (x : Vec F) (incx : Int) :
    Except String (Vec F) :=
  if uplo ≠ Upper ∧ uplo ≠ Lower then .error "DTRSV: Invalid UPLO parameter"
  else if trans ≠ NoTranspose ∧ trans ≠ Transpose ∧ trans ≠ ConjugateTranspose then
    .error "DTRSV: Invalid TRANS parameter"
  else if diag ≠ UnitDiag ∧ diag ≠ NonUnit then .error "DTRSV: Invalid DIAG parameter"
  else if n < 0 then .error "DTRSV: N must be >= 0"
  else if ldA < max 1 n then .error "DTRSV: LDA must be >= max(1,N)"
  else if incx = 0 then .error "DTRSV: INCX must not be zero"
  else if n = 0 then .ok x
  else
    let nounit := decide (diag = NonUnit)
    let kx : Int := if incx ≤ 0 then -(n - 1) * incx else 0
    if trans = NoTranspose then
      if uplo = Upper then
        if incx = 1 then .ok (trsvUN1 ops fdiv nounit n A ldA x)
        else .ok (trsvUNg ops fdiv nounit n A ldA x incx kx)
      else
        if incx = 1 then .ok (trsvLN1 ops fdiv nounit n A ldA x)
        else .ok (trsvLNg ops fdiv nounit n A ldA x incx kx)
    else
      if uplo = Upper then
        if incx = 1 then .ok (trsvUT1 ops fdiv nounit n A ldA x)
        else .ok (trsvUTg ops fdiv nounit n A ldA x incx kx)
      else
        if incx = 1 then .ok (trsvLT1 ops fdiv nounit n A ldA x)
        else .ok (trsvLTg ops fdiv nounit n A ldA x incx kx)

/-! ## Level 3 (`src/level3.ts`)

The level-3 source imports its enums from the same `types.ts` family
(`Transpose`, `Triangular`, `Diagonal`, `Side`); they are numeric enums with
the same constructor order as the `BLAS*` ones, so the same `Int` constants
are used. -/

/-- dgemm beta-scaling pass when alpha = 0 and beta = 0: zero the region. -/
def dgemmZero {F : Type} (ops : Ops F) (m n : Int) (C : Vec F) (ldC : Int) : Vec F :=
  foldI (fun j cc =>
      foldI (fun i c2 => upd c2 (i + j * ldC) ops.zero) m.toNat 0 cc) n.toNat 0 C

/-- dgemm beta-scaling pass when alpha = 0 and beta is not 0: scale the region. -/
def dgemmScale {F : Type} (ops : Ops F) (m n : Int) (beta : F) (C : Vec F)
    (ldC : Int) : Vec F :=
  foldI (fun j cc =>
      foldI (fun i c2 => upd c2 (i + j * ldC) (ops.mul beta (c2 (i + j * ldC))))
        m.toNat 0 cc) n.toNat 0 C

/-- dgemm main branch, A and B both untransposed: `C := alpha*A*B + beta*C`. -/
def dgemmNN {F : Type} [DecidableEq F] (ops : Ops F) (m n k : Int) (alpha : F)
    (A : Vec F) (ldA : Int) (B : Vec F) (ldB : Int) (beta : F) (C : Vec F)
    (ldC : Int) : Vec F :=
  foldI (fun j cc =>
      let c1 :=
        if beta = ops.zero then
          foldI (fun i c2 => upd c2 (i + j * ldC) ops.zero) m.toNat 0 cc
        else if beta ≠ ops.one then
          foldI (fun i c2 => upd c2 (i + j * ldC) (ops.mul beta (c2 (i + j * ldC))))
            m.toNat 0 cc
        else cc
      foldI (fun l c2 =>
        let temp := ops.mul alpha (B (l + j * ldB))
        foldI (fun i c3 => upd c3 (i + j * ldC)
            (ops.add (c3 (i + j * ldC)) (ops.mul temp (A (i + l * ldA)))))
          m.toNat 0 c2)
        k.toNat 0 c1)
    n.toNat 0 C

/-- dgemm main branch, A transposed and B untransposed:
`C := alpha*A^T*B + beta*C`. -/
def dgemmTN {F : Type} [DecidableEq F] (ops : Ops F) (m n k : Int) (alpha : F)
    (A : Vec F) (ldA : Int) (B : Vec F) (ldB : Int) (beta : F) (C : Vec F)
    (ldC : Int) : Vec F :=
  foldI (fun j cc =>
      foldI (fun i c2 =>
        let temp := foldI (fun l d => ops.add d (ops.mul (A (l + i * ldA)) (B (l + j * ldB))))
          k.toNat 0 ops.zero
        if beta = ops.zero then upd c2 (i + j * ldC) (ops.mul alpha temp)
        else upd c2 (i + j * ldC)
          (ops.add (ops.mul alpha temp) (ops.mul beta (c2 (i + j * ldC)))))
        m.toNat 0 cc)
    n.toNat 0 C

/-- dgemm main branch, A untransposed and B transposed:
`C := alpha*A*B^T + beta*C`. -/
def dgemmNT {F : Type} [DecidableEq F] (ops : Ops F) (m n k : Int) (alpha : F)
    (A : Vec F) (ldA : Int) (B : Vec F) (ldB : Int) (beta : F) (C : Vec F)
    (ldC : Int) : Vec F :=
  foldI (fun j cc =>
      let c1 :=
        if beta = ops.zero then
          foldI (fun i c2 => upd c2 (i + j * ldC) ops.zero) m.toNat 0 cc
        else if beta ≠ ops.one then
          foldI (fun i c2 => upd c2 (i + j * ldC) (ops.mul beta (c2 (i + j * ldC))))
            m.toNat 0 cc
        else cc
      foldI (fun l c2 =>
        let temp := ops.mul alpha (B (j + l * ldB))
        foldI (fun i c3 => upd c3 (i + j * ldC)
            (ops.add (c3 (i + j * ldC)) (ops.mul temp (A (i + l * ldA)))))
          m.toNat 0 c2)
        k.toNat 0 c1)
    n.toNat 0 C

/-- dgemm main branch, A and B both transposed: `C := alpha*A^T*B^T + beta*C`. -/
def dgemmTT {F : Type} [DecidableEq F] (ops : Ops F) (m n k : Int) (alpha : F)
    (A : Vec F) (ldA : Int) (B : Vec F) (ldB : Int) (beta : F) (C : Vec F)
    (ldC : Int) : Vec F :=
  foldI (fun j cc =>
      foldI (fun i c2 =>
        let temp := foldI (fun l d => ops.add d (ops.mul (A (l + i * ldA)) (B (j + l * ldB))))
          k.toNat 0 ops.zero
        if beta = ops.zero then upd c2 (i + j * ldC) (ops.mul alpha temp)
        else upd c2 (i + j * ldC)
          (ops.add (ops.mul alpha temp) (ops.mul beta (c2 (i + j * ldC)))))
        m.toNat 0 cc)
    n.toNat 0 C

/-- dgemm: `C := alpha*op(A)*op(B) + beta*C`. -/
def dgemm {F : Type} [DecidableEq F] (ops : Ops F) (transA transB : Int) (m n k : Int)
    (alpha : F) (A : Vec F) (ldA : Int) (B : Vec F) (ldB : Int) (beta : F)
    (C : Vec F) (ldC : Int) : Except String (Vec F) :=
  if transA ≠ NoTranspose ∧ transA ≠ Transpose ∧ transA ≠ ConjugateTranspose then
    .error "DGEMM: Invalid TRANSA parameter"
  else if transB ≠ NoTranspose ∧ transB ≠ Transpose ∧ transB ≠ ConjugateTranspose then
    .error "DGEMM: Invalid TRANSB parameter"
  else if m < 0 then .error "DGEMM: M must be >= 0"
  else if n < 0 then .error "DGEMM: N must be >= 0"
  else if k < 0 then .error "DGEMM: K must be >= 0"
  else if ldA < max 1 (if transA = NoTranspose then m else k) then
    .error "DGEMM: LDA must be >= max(1, nrowA)"
  else if ldB < max 1 (if transB = NoTranspose then k else n) then
    .error "DGEMM: LDB must be >= max(1, nrowB)"
  else if ldC < max 1 m then .error "DGEMM: LDC must be >= max(1, M)"
  else if m = 0 ∨ n = 0 ∨ ((alpha = ops.zero ∨ k = 0) ∧ beta = ops.one) then .ok C
  else if alpha = ops.zero then
    if beta = ops.zero then .ok (dgemmZero ops m n C ldC)
    else .ok (dgemmScale ops m n beta C ldC)
  else if transB = NoTranspose then
    if transA = NoTranspose then .ok (dgemmNN ops m n k alpha A ldA B ldB beta C ldC)
    else .ok (dgemmTN ops m n k alpha A ldA B ldB beta C ldC)
  else
    if transA = NoTranspose then .ok (dgemmNT ops m n k alpha A ldA B ldB beta C ldC)
    else .ok (dgemmTT ops m n k alpha A ldA B ldB beta C ldC)

/-- dsyrk beta pass, upper triangle, beta = 0: zero the triangle. -/
def dsyrkZeroU {F : Type} (ops : Ops F) (n : Int) (C : Vec F) (ldC : Int) : Vec F :=
  foldI (fun j cc =>
      foldI (fun i c2 => upd c2 (i + j * ldC) ops.zero) (j + 1).toNat 0 cc)
    n.toNat 0 C

/-- dsyrk beta pass, upper triangle, beta nonzero: scale the triangle. -/
def dsyrkScaleU {F : Type} (ops : Ops F) (n : Int) (beta : F) (C : Vec F)
    (ldC : Int) : Vec F :=
  foldI (fun j cc =>
      foldI (fun i c2 => upd c2 (i + j * ldC) (ops.mul beta (c2 (i + j * ldC))))
        (j + 1).toNat 0 cc)
    n.toNat 0 C

/-- dsyrk beta pass, lower triangle, beta = 0: zero the triangle. -/
def dsyrkZeroL {F : Type} (ops : Ops F) (n : Int) (C : Vec F) (ldC : Int) : Vec F :=
  foldI (fun j cc =>
      foldI (fun i c2 => upd c2 (i + j * ldC) ops.zero) (n - j).toNat j cc)
    n.toNat 0 C

/-- dsyrk beta pass, lower triangle, beta nonzero: scale the triangle. -/
def dsyrkScaleL {F : Type} (ops : Ops F) (n : Int) (beta : F) (C : Vec F)
    (ldC : Int) : Vec F :=
  foldI (fun j cc =>
      foldI (fun i c2 => upd c2 (i + j * ldC) (ops.mul beta (c2 (i + j * ldC))))
        (n - j).toNat j cc)
    n.toNat 0 C

/-- dsyrk main branch, untransposed, upper: `C := alpha*A*A^T + beta*C`. -/
def dsyrkNU {F : Type} [DecidableEq F] (ops : Ops F) (n k : Int) (alpha : F)
    (A : Vec F) (ldA : Int) (beta : F) (C : Vec F) (ldC : Int) : Vec F :=
  foldI (fun j cc =>
      let c1 :=
        if beta = ops.zero then
          foldI (fun i c2 => upd c2 (i + j * ldC) ops.zero) (j + 1).toNat 0 cc
        else if beta ≠ ops.one then
          foldI (fun i c2 => upd c2 (i + j * ldC) (ops.mul beta (c2 (i + j * ldC))))
            (j + 1).toNat 0 cc
        else cc
      foldI (fun l c2 =>
        if A (j + l * ldA) ≠ ops.zero then
          let temp := ops.mul alpha (A (j + l * ldA))
          foldI (fun i c3 => upd c3 (i + j * ldC)
              (ops.add (c3 (i + j * ldC)) (ops.mul temp (A (i + l * ldA)))))
            (j + 1).toNat 0 c2
        else c2)
        k.toNat 0 c1)
    n.toNat 0 C

/-- dsyrk main branch, untransposed, lower: `C := alpha*A*A^T + beta*C`. -/
def dsyrkNL {F : Type} [DecidableEq F] (ops : Ops F) (n k : Int) (alpha : F)
    (A : Vec F) (ldA : Int) (beta : F) (C : Vec F) (ldC : Int) : Vec F :=
  foldI (fun j cc =>
      let c1 :=
        if beta = ops.zero then
          foldI (fun i c2 => upd c2 (i + j * ldC) ops.zero) (n - j).toNat j cc
        else if beta ≠ ops.one then
          foldI (fun i c2 => upd c2 (i + j * ldC) (ops.mul beta (c2 (i + j * ldC))))
            (n - j).toNat j cc
        else cc
      foldI (fun l c2 =>
        if A (j + l * ldA) ≠ ops.zero then
          let temp := ops.mul alpha (A (j + l * ldA))
          foldI (fun i c3 => upd c3 (i + j * ldC)
              (ops.add (c3 (i + j * ldC)) (ops.mul temp (A (i + l * ldA)))))
            (n - j).toNat j c2
        else c2)
        k.toNat 0 c1)
    n.toNat 0 C

/-- dsyrk main branch, transposed, upper: `C := alpha*A^T*A + beta*C`. -/
def dsyrkTU {F : Type} [DecidableEq F] (ops : Ops F) (n k : Int) (alpha : F)
    (A : Vec F) (ldA : Int) (beta : F) (C : Vec F) (ldC : Int) : Vec F :=
  foldI (fun j cc =>
      foldI (fun i c2 =>
        let temp := foldI (fun l d => ops.add d (ops.mul (A (l + i * ldA)) (A (l + j * ldA))))
          k.toNat 0 ops.zero
        if beta = ops.zero then upd c2 (i + j * ldC) (ops.mul alpha temp)
        else upd c2 (i + j * ldC)
          (ops.add (ops.mul alpha temp) (ops.mul beta (c2 (i + j * ldC)))))
        (j + 1).toNat 0 cc)
    n.toNat 0 C

/-- dsyrk main branch, transposed, lower: `C := alpha*A^T*A + beta*C`. -/
def dsyrkTL {F : Type} [DecidableEq F] (ops : Ops F) (n k : Int) (alpha : F)
    (A : Vec F) (ldA : Int) (beta : F) (C : Vec F) (ldC : Int) : Vec F :=
  foldI (fun j cc =>
      foldI (fun i c2 =>
        let temp := foldI (fun l d => ops.add d (ops.mul (A (l + i * ldA)) (A (l + j * ldA))))
          k.toNat 0 ops.zero
        if beta = ops.zero then upd c2 (i + j * ldC) (ops.mul alpha temp)
        else upd c2 (i + j * ldC)
          (ops.add (ops.mul alpha temp) (ops.mul beta (c2 (i + j * ldC)))))
        (n - j).toNat j cc)
    n.toNat 0 C

/-- dsyrk: `C := alpha*A*A^T + beta*C` or `C := alpha*A^T*A + beta*C`,
touching only the `uplo` triangle of C. -/
def dsyrk {F : Type} [DecidableEq F] (ops : Ops F) (uplo trans : Int) (n k : Int)
    (alpha : F) (A : Vec F) (ldA : Int) (beta : F) (C : Vec F) (ldC : Int) :
    Except String (Vec F) :=
  if uplo ≠ Upper ∧ uplo ≠ Lower then .error "DSYRK: Invalid UPLO parameter"
  else if trans ≠ NoTranspose ∧ trans ≠ Transpose ∧ trans ≠ ConjugateTranspose then
    .error "DSYRK: Invalid TRANS parameter"
  else if n < 0 then .error "DSYRK: N must be >= 0"
  else if k < 0 then .error "DSYRK: K must be >= 0"
  else if ldA < max 1 (if trans = NoTranspose then n else k) then
    .error "DSYRK: LDA must be >= max(1, nrowA)"
  else if ldC < max 1 n then .error "DSYRK: LDC must be >= max(1, N)"
  else if n = 0 ∨ ((alpha = ops.zero ∨ k = 0) ∧ beta = ops.one) then .ok C
  else if alpha = ops.zero then
    if uplo = Upper then
      if beta = ops.zero then .ok (dsyrkZeroU ops n C ldC)
      else .ok (dsyrkScaleU ops n beta C ldC)
    else
      if beta = ops.zero then .ok (dsyrkZeroL ops n C ldC)
      else .ok (dsyrkScaleL ops n beta C ldC)
  else if trans = NoTranspose then
    if uplo = Upper then .ok (dsyrkNU ops n k alpha A ldA beta C ldC)
    else .ok (dsyrkNL ops n k alpha A ldA beta C ldC)
  else
    if uplo = Upper then .ok (dsyrkTU ops n k alpha A ldA beta C ldC)
    else .ok (dsyrkTL ops n k alpha A ldA beta C ldC)

/-- dtrsm: solves `op(A)*X = alpha*B` or `X*op(A) = alpha*B`, X overwriting
B.  The source has a "Test the input parameters" comment but, unlike every
other level-3 routine, performs no validation and can throw nothing, so the
embedding returns the buffer directly. -/
def dtrsm {F : Type} [DecidableEq F] (ops : Ops F) (fdiv : F → F → F)
    (side uplo transA diag : Int) (m n : Int) (alpha : F) (A : Vec F) (ldA : Int)
    (B : Vec F) (ldB : Int) : Vec F :=
  let lside := side = LeftSide
  let nounit := decide (diag = NonUnit)
  let upper := uplo = Upper
  if m = 0 ∨ n = 0 then B
  else if alpha = ops.zero then
    foldI (fun j bb =>
        foldI (fun i b2 => upd b2 (i + j * ldB) ops.zero) m.toNat 0 bb) n.toNat 0 B
  else if lside then
    if transA = NoTranspose then
      if upper then
        foldI (fun j bb =>
          let b1 :=
            if alpha ≠ ops.one then
              foldI (fun i b2 => upd b2 (i + j * ldB) (ops.mul alpha (b2 (i + j * ldB))))
                m.toNat 0 bb
            else bb
          foldD (fun p b2 =>
            if b2 (p + j * ldB) ≠ ops.zero then
              let b3 := if nounit then
                  upd b2 (p + j * ldB) (fdiv (b2 (p + j * ldB)) (A (p + p * ldA)))
                else b2
              foldI (fun i b4 => upd b4 (i + j * ldB)
                  (ops.sub (b4 (i + j * ldB)) (ops.mul (b4 (p + j * ldB)) (A (i + p * ldA)))))
                p.toNat 0 b3
            else b2) m.toNat (m - 1) b1) n.toNat 0 B
      else
        foldI (fun j bb =>
          let b1 :=
            if alpha ≠ ops.one then
              foldI (fun i b2 => upd b2 (i + j * ldB) (ops.mul alpha (b2 (i + j * ldB))))
                m.toNat 0 bb
            else bb
          foldI (fun p b2 =>
            if b2 (p + j * ldB) ≠ ops.zero then
              let b3 := if nounit then
                  upd b2 (p + j * ldB) (fdiv (b2 (p + j * ldB)) (A (p + p * ldA)))
                else b2
              foldI (fun i b4 => upd b4 (i + j * ldB)
                  (ops.sub (b4 (i + j * ldB)) (ops.mul (b4 (p + j * ldB)) (A (i + p * ldA)))))
                (m - (p + 1)).toNat (p + 1) b3
            else b2) m.toNat 0 b1) n.toNat 0 B
    else
      if upper then
        foldI (fun j bb =>
          foldI (fun i b2 =>
            let t0 := foldI (fun p d => ops.sub d (ops.mul (A (p + i * ldA)) (b2 (p + j * ldB))))
              i.toNat 0 (ops.mul alpha (b2 (i + j * ldB)))
            let t1 := if nounit then fdiv t0 (A (i + i * ldA)) else t0
            upd b2 (i + j * ldB) t1) m.toNat 0 bb) n.toNat 0 B
      else
        foldI (fun j bb =>
          foldI (fun i b2 =>
            let t0 := foldI (fun p d => ops.sub d (ops.mul (A (i + p * ldA)) (b2 (p + j * ldB))))
              i.toNat 0 (ops.mul alpha (b2 (i + j * ldB)))
            let t1 := if nounit then fdiv t0 (A (i + i * ldA)) else t0
            upd b2 (i + j * ldB) t1) m.toNat 0 bb) n.toNat 0 B
  else
    if transA = NoTranspose then
      if upper then
        foldI (fun j bb =>
          let b1 :=
            if alpha ≠ ops.one then
              foldI (fun i b2 => upd b2 (i + j * ldB) (ops.mul alpha (b2 (i + j * ldB))))
                m.toNat 0 bb
            else bb
          let b2 := foldI (fun p b2 =>
            if A (p + j * ldA) ≠ ops.zero then
              foldI (fun i b3 => upd b3 (i + j * ldB)
                  (ops.sub (b3 (i + j * ldB)) (ops.mul (A (p + j * ldA)) (b3 (i + p * ldB)))))
                m.toNat 0 b2
            else b2) j.toNat 0 b1
          if nounit then
            let temp := fdiv ops.one (A (j + j * ldA))
            foldI (fun i b3 => upd b3 (i + j * ldB) (ops.mul temp (b3 (i + j * ldB))))
              m.toNat 0 b2
          else b2) n.toNat 0 B
      else
        foldD (fun j bb =>
          let b1 :=
            if alpha ≠ ops.one then
              foldI (fun i b2 => upd b2 (i + j * ldB) (ops.mul alpha (b2 (i + j * ldB))))
                m.toNat 0 bb
            else bb
          let b2 := foldI (fun p b2 =>
            if A (p + j * ldA) ≠ ops.zero then
              foldI (fun i b3 => upd b3 (i + j * ldB)
                  (ops.sub (b3 (i + j * ldB)) (ops.mul (A (p + j * ldA)) (b3 (i + p * ldB)))))
                m.toNat 0 b2
            else b2) (n - (j + 1)).toNat (j + 1) b1
          if nounit then
            let temp := fdiv ops.one (A (j + j * ldA))
            foldI (fun i b3 => upd b3 (i + j * ldB) (ops.mul temp (b3 (i + j * ldB))))
              m.toNat 0 b2
          else b2) n.toNat (n - 1) B
    else
      if upper then
        foldD (fun p bb =>
          let b1 :=
            if nounit then
              let temp := fdiv ops.one (A (p + p * ldA))
              foldI (fun i b2 => upd b2 (i + p * ldB) (ops.mul temp (b2 (i + p * ldB))))
                m.toNat 0 bb
            else bb
          let b2 := foldI (fun j b2 =>
            if A (j + p * ldA) ≠ ops.zero then
              let temp := A (j + p * ldA)
              foldI (fun i b3 => upd b3 (i + j * ldB)
                  (ops.sub (b3 (i + j * ldB)) (ops.mul temp (b3 (i + p * ldB)))))
                m.toNat 0 b2
            else b2) p.toNat 0 b1
          if alpha ≠ ops.one then
            foldI (fun i b3 => upd b3 (i + p * ldB) (ops.mul alpha (b3 (i + p * ldB))))
              m.toNat 0 b2
          else b2) n.toNat (n - 1) B
      else
        foldI (fun p bb =>
          let b1 :=
            if nounit then
              let temp := fdiv ops.one (A (p + p * ldA))
              foldI (fun i b2 => upd b2 (i + p * ldB) (ops.mul temp (b2 (i + p * ldB))))
                m.toNat 0 bb
            else bb
          let b2 := foldI (fun j b2 =>
            if A (j + p * ldA) ≠ ops.zero then
              let temp := A (j + p * ldA)
              foldI (fun i b3 => upd b3 (i + j * ldB)
                  (ops.sub (b3 (i + j * ldB)) (ops.mul temp (b3 (i + p * ldB)))))
                m.toNat 0 b2
            else b2) (n - (p + 1)).toNat (p + 1) b1
          if alpha ≠ ops.one then
            foldI (fun i b3 => upd b3 (i + p * ldB) (ops.mul alpha (b3 (i + p * ldB))))
              m.toNat 0 b2
          else b2) n.toNat 0 B

theorem upd_same {F : Type} (v : Vec F) (i : Int) (a : F) : upd v i a i = a := by
  unfold upd
  exact Function.update_same i a v

theorem upd_other {F : Type} (v : Vec F) (i j : Int) (a : F) (h : j ≠ i) :
    upd v i a j = v j := by
  unfold upd
  exact Function.update_noteq h a v

theorem foldI_add {σ : Type} (f : Int → σ → σ) (a b : Nat) :
    ∀ (start : Int) (s : σ),
      foldI f (a + b) start s = foldI f b (start + (a : Int)) (foldI f a start s) := by
  induction a with
  | zero => intro start s; simp [foldI]
  | succ a ih =>
      intro start s
      have h1 : a + 1 + b = (a + b) + 1 := by omega
      rw [h1]
      show foldI f (a + b) (start + 1) (f start s) = _
      rw [ih (start + 1) (f start s)]
      have h2 : start + 1 + (a : Int) = start + ((a : Nat) + 1 : Nat) := by
        push_cast; ring
      rw [h2]
      rfl

theorem foldS_one {σ : Type} (f : Int → σ → σ) :
    ∀ (k : Nat) (start : Int) (s : σ), foldS f 1 k start s = foldI f k start s := by
  intro k
  induction k with
  | zero => intro start s; rfl
  | succ k ih => intro start s; show foldS f 1 k (start + 1) (f start s) = _; rw [ih]; rfl

/-- A strided loop whose body performs `c` consecutive unit steps equals the
flat unit-stride loop over `c * K` indices. -/
theorem foldS_to_foldI {σ : Type} (f g : Int → σ → σ) (c : Nat)
    (hg : ∀ (i : Int) (s : σ), g i s = foldI f c i s) :
    ∀ (K : Nat) (start : Int) (s : σ),
      foldS g (c : Int) K start s = foldI f (c * K) start s := by
  intro K
  induction K with
  | zero => intro start s; simp [foldS, foldI]
  | succ K ih =>
      intro start s
      show foldS g (c : Int) K (start + (c : Int)) (g start s) = _
      rw [ih, hg]
      have h1 : c * (K + 1) = c + c * K := by ring
      rw [h1, foldI_add]

theorem foldI_congr {σ : Type} (f g : Int → σ → σ) :
    ∀ (k : Nat) (start : Int) (s : σ),
      (∀ (i : Int) (t : σ), start ≤ i → i < start + (k : Int) → f i t = g i t) →
      foldI f k start s = foldI g k start s := by
  intro k
  induction k with
  | zero => intro start s _; rfl
  | succ k ih =>
      intro start s h
      show foldI f k (start + 1) (f start s) = foldI g k (start + 1) (g start s)
      rw [h start s le_rfl (by push_cast; omega)]
      exact ih (start + 1) (g start s) (fun i t h1 h2 => h i t (by omega) (by push_cast at h2 ⊢; omega))

theorem foldD_congr {σ : Type} (f g : Int → σ → σ) :
    ∀ (k : Nat) (start : Int) (s : σ),
      (∀ (i : Int) (t : σ), start - (k : Int) < i → i ≤ start → f i t = g i t) →
      foldD f k start s = foldD g k start s := by
  intro k
  induction k with
  | zero => intro start s _; rfl
  | succ k ih =>
      intro start s h
      show foldD f k (start - 1) (f start s) = foldD g k (start - 1) (g start s)
      rw [h start s (by push_cast; omega) le_rfl]
      exact ih (start - 1) (g start s) (fun i t h1 h2 => h i t (by push_cast at h1 ⊢; omega) (by omega))

/-- Loop induction: an indexed invariant carried along an ascending loop. -/
theorem foldI_ind {σ : Type} (f : Int → σ → σ) (P : Int → σ → Prop) :
    ∀ (k : Nat) (start : Int) (s : σ),
      P start s →
      (∀ (i : Int) (t : σ), start ≤ i → i < start + (k : Int) → P i t → P (i + 1) (f i t)) →
      P (start + (k : Int)) (foldI f k start s) := by
  intro k
  induction k with
  | zero => intro start s h0 _; simpa using h0
  | succ k ih =>
      intro start s h0 hstep
      have h1 : start + ((k : Nat) + 1 : Nat) = (start + 1) + (k : Int) := by push_cast; ring
      rw [h1]
      exact ih (start + 1) (f start s)
        (hstep start s le_rfl (by push_cast; omega) h0)
        (fun i t hi1 hi2 hP => hstep i t (by omega) (by push_cast at hi2 ⊢; omega) hP)

/-- Loop induction for descending loops. -/
theorem foldD_ind {σ : Type} (f : Int → σ → σ) (P : Int → σ → Prop) :
    ∀ (k : Nat) (start : Int) (s : σ),
      P start s →
      (∀ (i : Int) (t : σ), start - (k : Int) < i → i ≤ start → P i t → P (i - 1) (f i t)) →
      P (start - (k : Int)) (foldD f k start s) := by
  intro k
  induction k with
  | zero => intro start s h0 _; simpa using h0
  | succ k ih =>
      intro start s h0 hstep
      have h1 : start - ((k : Nat) + 1 : Nat) = (start - 1) - (k : Int) := by push_cast; ring
      rw [h1]
      exact ih (start - 1) (f start s)
        (hstep start s (by push_cast; omega) le_rfl h0)
        (fun i t hi1 hi2 hP => hstep i t (by push_cast at hi1 ⊢; omega) (by omega) hP)

/-- State invariant preserved by every in-range iteration of an ascending loop. -/
theorem foldI_inv {σ : Type} (f : Int → σ → σ) (Q : σ → Prop)
    (k : Nat) (start : Int) (s : σ)
    (hstep : ∀ (i : Int) (t : σ), start ≤ i → i < start + (k : Int) → Q t → Q (f i t))
    (h0 : Q s) : Q (foldI f k start s) :=
  foldI_ind f (fun _ t => Q t) k start s h0 hstep

/-- State invariant preserved by every in-range iteration of a descending loop. -/
theorem foldD_inv {σ : Type} (f : Int → σ → σ) (Q : σ → Prop)
    (k : Nat) (start : Int) (s : σ)
    (hstep : ∀ (i : Int) (t : σ), start - (k : Int) < i → i ≤ start → Q t → Q (f i t))
    (h0 : Q s) : Q (foldD f k start s) :=
  foldD_ind f (fun _ t => Q t) k start s h0 hstep

/-- Column-major flat offsets are injective on a column of height `ld`. -/
theorem flat_inj {i j i' j' ld : Int} (hld : 1 ≤ ld)
    (h1 : 0 ≤ i) (h2 : i < ld) (h3 : 0 ≤ i') (h4 : i' < ld)
    (h : i + j * ld = i' + j' * ld) : i = i' ∧ j = j' := by
  have hj : j = j' := by
    by_contra hne
    rcases lt_or_gt_of_ne hne with hlt | hgt
    · have hle : j + 1 ≤ j' := by omega
      have : (j + 1) * ld ≤ j' * ld := by
        exact mul_le_mul_of_nonneg_right (by omega) (by omega)
      nlinarith
    · have hle : j' + 1 ≤ j := by omega
      have : (j' + 1) * ld ≤ j * ld := by
        exact mul_le_mul_of_nonneg_right (by omega) (by omega)
      nlinarith
  subst hj
  constructor
  · omega
  · rfl

theorem neg_tmod (a b : Int) : (-a).tmod b = -(a.tmod b) := by
  simp only [Int.tmod_def, Int.neg_tdiv, Int.mul_neg]
  ring

theorem tmod_nonpos (n c : Int) (h : n ≤ 0) : n.tmod c ≤ 0 := by
  have h1 : 0 ≤ (-n).tmod c := Int.tmod_nonneg c (by omega)
  rw [neg_tmod] at h1
  omega

theorem ite_fold_collapse {σ : Type} (f : Int → σ → σ) (m : Int) (s : σ) :
    (if m ≠ 0 then foldI f m.toNat 0 s else s) = foldI f m.toNat 0 s := by
  split
  · rfl
  · rename_i h
    have hm : m = 0 := by omega
    rw [hm]
    rfl

/-- Shape of the unrolled unit-stride paths that place the `n < c` early
return inside the `m ≠ 0` cleanup guard (dscal, dcopy, dswap, ddot, dasum):
cleanup of `n tmod c` elements followed by blocks of `c`, which together
equal the plain one-at-a-time loop over all `n` elements. -/
theorem unit_shape {σ : Type} (f g : Int → σ → σ) (c : Nat) (hc : 1 ≤ c)
    (hg : ∀ (i : Int) (t : σ), g i t = foldI f c i t) (n : Int) (s : σ) :
    (if n.tmod (c : Int) ≠ 0 ∧ n < (c : Int) then
       (if n.tmod (c : Int) ≠ 0 then foldI f (n.tmod (c : Int)).toNat 0 s else s)
     else
       foldS g (c : Int) (((n - n.tmod (c : Int) + ((c : Int) - 1)) / (c : Int)).toNat
         : Nat)
         (n.tmod (c : Int))
         (if n.tmod (c : Int) ≠ 0 then foldI f (n.tmod (c : Int)).toNat 0 s else s))
    = foldI f n.toNat 0 s := by
  have hcz : (c : Int) ≠ 0 := by positivity
  rw [ite_fold_collapse]
  by_cases hn : n ≤ 0
  · have hm1 : n.tmod (c : Int) ≤ 0 := tmod_nonpos n c hn
    have hm2 : (n.tmod (c : Int)).toNat = 0 := by omega
    have hn2 : n.toNat = 0 := by omega
    rw [hm2, hn2]
    split
    · rfl
    · rename_i hcond
      have hm0 : n.tmod (c : Int) = 0 := by
        by_cases h : n.tmod (c : Int) = 0
        · exact h
        · exact absurd ⟨h, by omega⟩ hcond
      have harg : n - n.tmod (c : Int) + ((c : Int) - 1) < (c : Int) := by omega
      have hK : (n - n.tmod (c : Int) + ((c : Int) - 1)) / (c : Int) ≤ 0 := by
        rcases le_or_lt 0 (n - n.tmod (c : Int) + ((c : Int) - 1)) with h2 | h2
        · exact le_of_eq (Int.ediv_eq_zero_of_lt h2 harg)
        · exact le_of_lt (Int.ediv_neg' h2 (by omega))
      have hK2 : ((n - n.tmod (c : Int) + ((c : Int) - 1)) / (c : Int)).toNat = 0 := by omega
      rw [hK2]
      rfl
  · push_neg at hn
    have hm0 : 0 ≤ n.tmod (c : Int) := Int.tmod_nonneg _ (by omega)
    have hme : n.tmod (c : Int) = n % (c : Int) := Int.tmod_eq_emod (by omega) (by omega)
    by_cases hsmall : n < (c : Int)
    · have hmn : n.tmod (c : Int) = n := Int.tmod_eq_of_lt (by omega) hsmall
      rw [if_pos ⟨by omega, hsmall⟩, hmn]
    · push_neg at hsmall
      rw [if_neg (by push_neg; intro _; omega)]
      have hsub : n - n.tmod (c : Int) = (c : Int) * (n / (c : Int)) := by
        rw [hme]
        have := Int.emod_add_ediv n (c : Int)
        omega
      have hKval : (n - n.tmod (c : Int) + ((c : Int) - 1)) / (c : Int) = n / (c : Int) := by
        rw [hsub]
        have hcomm : (c : Int) * (n / (c : Int)) + ((c : Int) - 1)
            = ((c : Int) - 1) + (c : Int) * (n / (c : Int)) := by ring
        rw [hcomm, Int.add_mul_ediv_left _ _ hcz,
          Int.ediv_eq_zero_of_lt (by omega) (by omega), zero_add]
      rw [hKval, foldS_to_foldI f g c hg]
      have hdnn : 0 ≤ n / (c : Int) := Int.ediv_nonneg (by omega) (by omega)
      have h3 : ((c * (n / (c : Int)).toNat : Nat) : Int) = (c : Int) * (n / (c : Int)) := by
        push_cast
        rw [Int.toNat_of_nonneg hdnn]
      have hnt : n.toNat = (n.tmod (c : Int)).toNat + c * (n / (c : Int)).toNat := by
        have h1 := Int.emod_add_ediv n (c : Int)
        omega
      rw [hnt, foldI_add]
      have hstart : (0 : Int) + (((n.tmod (c : Int)).toNat : Nat) : Int) = n.tmod (c : Int) := by
        omega
      rw [hstart]

/-- Shape of daxpy's unrolled unit-stride path, whose `n < c` early return
sits after the cleanup loop rather than inside its guard. -/
theorem unit_shape_axpy {σ : Type} (f g : Int → σ → σ) (c : Nat) (hc : 1 ≤ c)
    (hg : ∀ (i : Int) (t : σ), g i t = foldI f c i t) (n : Int) (s : σ) :
    (if n < (c : Int) then
       (if n.tmod (c : Int) ≠ 0 then foldI f (n.tmod (c : Int)).toNat 0 s else s)
     else
       foldS g (c : Int) (((n - n.tmod (c : Int) + ((c : Int) - 1)) / (c : Int)).toNat : Nat)
         (n.tmod (c : Int))
         (if n.tmod (c : Int) ≠ 0 then foldI f (n.tmod (c : Int)).toNat 0 s else s))
    = foldI f n.toNat 0 s := by
  have h := unit_shape f g c hc hg n s
  by_cases hsmall : n < (c : Int)
  · rw [if_pos hsmall]
    rw [ite_fold_collapse] at h ⊢
    by_cases hn : n ≤ 0
    · have hm2 : (n.tmod (c : Int)).toNat = 0 := by
        have := tmod_nonpos n c hn
        omega
      have hn2 : n.toNat = 0 := by omega
      rw [hm2, hn2]
    · have hmn : n.tmod (c : Int) = n := Int.tmod_eq_of_lt (by omega) hsmall
      rw [hmn]
  · rw [if_neg hsmall]
    rw [if_neg (by push_neg; intro _; omega)] at h
    exact h

/-- Running the generic two-index loop with both increments 1 from equal
start offsets is the plain one-index loop. -/
theorem fold_diag {σ : Type} (g : Int → Int → σ → σ) :
    ∀ (k : Nat) (c i : Int) (s : σ),
      (foldI (fun _ t => (t.1 + 1, t.2.1 + 1, g t.1 t.2.1 t.2.2)) k c
          ((i, i, s) : Int × Int × σ)).2.2
        = foldI (fun j u => g j j u) k i s := by
  intro k
  induction k with
  | zero => intro c i s; rfl
  | succ k ih =>
      intro c i s
      show (foldI _ k (c + 1) ((i + 1, i + 1, g i i s) : Int × Int × σ)).2.2 = _
      rw [ih (c + 1) (i + 1) (g i i s)]
      rfl

/-! ## Path equivalence of the Level 1 unit-stride and generic branches -/

theorem daxpyUnit_spec {F : Type} (ops : Ops F) (n : Int) (alpha : F) (x y : Vec F) :
    daxpyUnit ops n alpha x y = foldI (axpyF ops alpha x) n.toNat 0 y := by
  unfold daxpyUnit
  refine unit_shape_axpy (axpyF ops alpha x) ?_ 4 (by norm_num) ?_ n y
  intro i t
  simp only [foldI, axpyF, add_assoc, Int.reduceAdd]

theorem daxpyGen_spec {F : Type} (ops : Ops F) (n : Int) (alpha : F) (x y : Vec F) :
    daxpyGen ops n alpha x 1 y 1 = foldI (axpyF ops alpha x) n.toNat 0 y := by
  simp only [daxpyGen]
  norm_num
  exact fold_diag (fun ix iy u => upd u iy (ops.add (u iy) (ops.mul alpha (x ix)))) n.toNat 0 0 y

theorem dscalUnit_spec {F : Type} (ops : Ops F) (n : Int) (alpha : F) (x : Vec F) :
    dscalUnit ops n alpha x = foldI (scalF ops alpha) n.toNat 0 x := by
  unfold dscalUnit
  refine unit_shape (scalF ops alpha) ?_ 5 (by norm_num) ?_ n x
  intro i t
  simp only [foldI, scalF, add_assoc, Int.reduceAdd]

theorem dscalGen_spec {F : Type} (ops : Ops F) (n : Int) (alpha : F) (x : Vec F) :
    dscalGen ops n alpha x 1 = foldI (scalF ops alpha) n.toNat 0 x := by
  simp only [dscalGen]
  norm_num
  exact foldS_one (scalF ops alpha) n.toNat 0 x

theorem dcopyUnit_spec {F : Type} (n : Int) (x y : Vec F) :
    dcopyUnit n x y = foldI (copyF x) n.toNat 0 y := by
  unfold dcopyUnit
  refine unit_shape (copyF x) ?_ 7 (by norm_num) ?_ n y
  intro i t
  simp only [foldI, copyF, add_assoc, Int.reduceAdd]

theorem dcopyGen_spec {F : Type} (n : Int) (x y : Vec F) :
    dcopyGen n x 1 y 1 = foldI (copyF x) n.toNat 0 y := by
  simp only [dcopyGen]
  norm_num
  exact fold_diag (fun ix iy u => upd u iy (x ix)) n.toNat 0 0 y

theorem dswapUnit_spec {F : Type} (n : Int) (x y : Vec F) :
    dswapUnit n x y = foldI (swapF : Int → Vec F × Vec F → Vec F × Vec F) n.toNat 0 (x, y) := by
  unfold dswapUnit
  refine unit_shape (swapF : Int → Vec F × Vec F → Vec F × Vec F) ?_ 3 (by norm_num) ?_ n (x, y)
  intro i t
  simp only [foldI, swapF, add_assoc, Int.reduceAdd]

theorem dswapGen_spec {F : Type} (n : Int) (x y : Vec F) :
    dswapGen n x 1 y 1 = foldI (swapF : Int → Vec F × Vec F → Vec F × Vec F) n.toNat 0 (x, y) := by
  simp only [dswapGen]
  norm_num
  exact fold_diag (fun ix iy (p : Vec F × Vec F) => (upd p.1 ix (p.2 iy), upd p.2 iy (p.1 ix)))
    n.toNat 0 0 (x, y)

theorem ddotUnit_spec {F : Type} (ops : Ops F) (n : Int) (x y : Vec F) :
    ddotUnit ops n x y = foldI (dotF ops x y) n.toNat 0 ops.zero := by
  unfold ddotUnit
  refine unit_shape (dotF ops x y) ?_ 5 (by norm_num) ?_ n ops.zero
  intro i t
  simp only [foldI, dotF, add_assoc, Int.reduceAdd]

theorem ddotGen_spec {F : Type} (ops : Ops F) (n : Int) (x y : Vec F) :
    ddotGen ops n x 1 y 1 = foldI (dotF ops x y) n.toNat 0 ops.zero := by
  simp only [ddotGen]
  norm_num
  exact fold_diag (fun ix iy (d : F) => ops.add d (ops.mul (x ix) (y iy))) n.toNat 0 0 ops.zero

theorem dasumUnit_spec {F : Type} (ops : Ops F) (fabs : F → F) (n : Int) (x : Vec F)
    (hassoc : ∀ a b c : F, ops.add (ops.add a b) c = ops.add a (ops.add b c)) :
    dasumUnit ops fabs n x = foldI (asumF ops fabs x) n.toNat 0 ops.zero := by
  unfold dasumUnit
  refine unit_shape (asumF ops fabs x) ?_ 6 (by norm_num) ?_ n ops.zero
  intro i d
  have hfold : foldI (asumF ops fabs x) 6 i d
      = ops.add (ops.add (ops.add (ops.add (ops.add (ops.add d (fabs (x i)))
          (fabs (x (i + 1)))) (fabs (x (i + 2)))) (fabs (x (i + 3))))
          (fabs (x (i + 4)))) (fabs (x (i + 5))) := by
    simp only [foldI, asumF, add_assoc, Int.reduceAdd]
  rw [hfold]
  rw [hassoc d (fabs (x i)) (fabs (x (i + 1)))]
  rw [hassoc d (ops.add (fabs (x i)) (fabs (x (i + 1)))) (fabs (x (i + 2)))]
  rw [hassoc d (ops.add (ops.add (fabs (x i)) (fabs (x (i + 1)))) (fabs (x (i + 2))))
    (fabs (x (i + 3)))]
  rw [hassoc d (ops.add (ops.add (ops.add (fabs (x i)) (fabs (x (i + 1))))
    (fabs (x (i + 2)))) (fabs (x (i + 3)))) (fabs (x (i + 4)))]
  rw [hassoc d (ops.add (ops.add (ops.add (ops.add (fabs (x i)) (fabs (x (i + 1))))
    (fabs (x (i + 2)))) (fabs (x (i + 3)))) (fabs (x (i + 4)))) (fabs (x (i + 5)))]

theorem dasumGen_spec {F : Type} (ops : Ops F) (fabs : F → F) (n : Int) (x : Vec F) :
    dasumGen ops fabs n x 1 = foldI (asumF ops fabs x) n.toNat 0 ops.zero := by
  simp only [dasumGen]
  norm_num
  exact foldS_one (asumF ops fabs x) n.toNat 0 ops.zero

set_option maxRecDepth 100000 in
/-- C1: the claim asserts bit-identical results of the unrolled unit-stride
path and the generic strided path at stride one for all six kernels; under
binary64 addition the two dasum paths differ on `dasumCtrX` with `n = 12`
(the unrolled path returns `1e16 + 6`, the generic path `1e16`). -/
theorem claim_C1_counterexample :
    dasumUnit f64Ops (fun z => |z|) 12 dasumCtrX
      ≠ dasumGen f64Ops (fun z => |z|) 12 dasumCtrX 1 := by
  decide

/-- C1 (amended): for every operation interpretation — hence bit-identically
under IEEE semantics — the unrolled unit-stride path equals the generic
strided path at stride one for daxpy, dscal, dcopy, dswap and ddot; for
dasum the two paths agree whenever the interpretation of addition is
associative (exact arithmetic), but not bit-identically. -/
theorem claim_C1_amended {F : Type} (ops : Ops F) (fabs : F → F) (n : Int) (alpha : F)
    (x y : Vec F) :
    daxpyUnit ops n alpha x y = daxpyGen ops n alpha x 1 y 1 ∧
    dscalUnit ops n alpha x = dscalGen ops n alpha x 1 ∧
    dcopyUnit n x y = dcopyGen n x 1 y 1 ∧
    dswapUnit n x y = dswapGen n x 1 y 1 ∧
    ddotUnit ops n x y = ddotGen ops n x 1 y 1 ∧
    ((∀ a b c : F, ops.add (ops.add a b) c = ops.add a (ops.add b c)) →
      dasumUnit ops fabs n x = dasumGen ops fabs n x 1) := by
  refine ⟨?_, ?_, ?_, ?_, ?_, ?_⟩
  · rw [daxpyUnit_spec, daxpyGen_spec]
  · rw [dscalUnit_spec, dscalGen_spec]
  · rw [dcopyUnit_spec, dcopyGen_spec]
  · rw [dswapUnit_spec, dswapGen_spec]
  · rw [ddotUnit_spec, ddotGen_spec]
  · intro hassoc
    rw [dasumUnit_spec ops fabs n x hassoc, dasumGen_spec]

/-- Witness for C1 (amended) at the exact integer interpretation, where
addition is associative, so all six equalities hold. -/
theorem claim_C1_amended_witness :
    dasumUnit intOps (fun z => |z|) 9 (fun i => i)
      = dasumGen intOps (fun z => |z|) 9 (fun i => i) 1 :=
  (claim_C1_amended intOps (fun z => |z|) 9 2 (fun i => i) (fun _ => 1)).2.2.2.2.2
    (fun a b c => Int.add_assoc a b c)

/-- C7: daxpy returns with y untouched when `alpha == 0` or `n <= 0`; the
quick return happens before any buffer element is read or written, so the
statement holds for every buffer contents and both strides. -/
theorem claim_C7 {F : Type} [DecidableEq F] (ops : Ops F) (n : Int) (alpha : F)
    (x : Vec F) (incx : Int) (y : Vec F) (incy : Int)
    (h : n ≤ 0 ∨ alpha = ops.zero) :
    daxpy ops n alpha x incx y incy = y := by
  rcases h with h | h
  · unfold daxpy
    rw [if_pos h]
  · unfold daxpy
    by_cases hn : n ≤ 0
    · rw [if_pos hn]
    · rw [if_neg hn, if_pos h]

theorem claim_C7_witness :
    (((3 : Int) ≤ 0 ∨ (0 : Int) = intOps.zero) ∧
      daxpy intOps 3 0 (fun _ => 5) 7 (fun _ => 11) (-2) = (fun _ => 11)) :=
  ⟨Or.inr rfl, claim_C7 intOps 3 0 (fun _ => 5) 7 (fun _ => 11) (-2) (Or.inr rfl)⟩

/-- The generic daxpy loop with `incx = 0`, `incy = 1` adds `alpha * x[0]`
to each of `y[0..n)` and touches nothing else. -/
theorem daxpyGen_incx0 {F : Type} (ops : Ops F) (n : Int) (alpha : F) (x y : Vec F) :
    daxpyGen ops n alpha x 0 y 1
      = fun idx => if 0 ≤ idx ∧ idx < n then ops.add (y idx) (ops.mul alpha (x 0))
          else y idx := by
  have key : ∀ (k : Nat) (c iy : Int) (yy : Vec F),
      (foldI (fun _ (s : Int × Int × Vec F) => (s.1 + 0, s.2.1 + 1,
          upd s.2.2 s.2.1 (ops.add (s.2.2 s.2.1) (ops.mul alpha (x s.1)))))
        k c ((0, iy, yy) : Int × Int × Vec F)).2.2
      = fun idx => if iy ≤ idx ∧ idx < iy + (k : Int)
          then ops.add (yy idx) (ops.mul alpha (x 0)) else yy idx := by
    intro k
    induction k with
    | zero =>
        intro c iy yy
        funext idx
        simp only [foldI]
        rw [if_neg (by push_cast; omega)]
    | succ k ih =>
        intro c iy yy
        show (foldI _ k (c + 1) ((0 + 0, iy + 1,
            upd yy iy (ops.add (yy iy) (ops.mul alpha (x 0)))) : Int × Int × Vec F)).2.2 = _
        have h00 : (0 : Int) + 0 = 0 := by norm_num
        rw [h00, ih (c + 1) (iy + 1) (upd yy iy (ops.add (yy iy) (ops.mul alpha (x 0))))]
        funext idx
        by_cases hidx : idx = iy
        · subst hidx
          rw [if_neg (by omega), if_pos (by push_cast; omega), upd_same]
        · by_cases hin : iy + 1 ≤ idx ∧ idx < iy + 1 + (k : Int)
          · rw [if_pos hin, if_pos (by push_cast at hin ⊢; omega), upd_other _ _ _ _ hidx]
          · rw [if_neg hin, if_neg (by push_cast at hin ⊢; omega), upd_other _ _ _ _ hidx]
  unfold daxpyGen
  have h0 : (if (0 : Int) < 0 then (-n + 1) * 0 else 0) = 0 := by norm_num
  have h1 : (if (1 : Int) < 0 then (-n + 1) * 1 else 0) = 0 := by norm_num
  simp only [h0, h1]
  rw [key n.toNat 0 0 y]
  funext idx
  by_cases hc : 0 ≤ idx ∧ idx < n
  · rw [if_pos (by push_cast; omega), if_pos hc]
  · rw [if_neg (by push_cast; omega), if_neg hc]

/-- C9: daxpy performs no stride validation; with `incx == 0`, `incy == 1`,
`n >= 1` and `alpha != 0` it runs the generic loop, adding `alpha * x[0]` to
every `y[i]`, `0 <= i < n`, leaving the rest of y unchanged and depending on
x only through `x[0]`. -/
theorem claim_C9 {F : Type} [DecidableEq F] (ops : Ops F) (n : Int) (alpha : F)
    (x y : Vec F) (hn : 1 ≤ n) (ha : alpha ≠ ops.zero) :
    (∀ i : Int, 0 ≤ i → i < n →
        daxpy ops n alpha x 0 y 1 i = ops.add (y i) (ops.mul alpha (x 0))) ∧
    (∀ i : Int, i < 0 ∨ n ≤ i → daxpy ops n alpha x 0 y 1 i = y i) ∧
    (∀ x' : Vec F, x 0 = x' 0 →
        daxpy ops n alpha x 0 y 1 = daxpy ops n alpha x' 0 y 1) := by
  have hbranch : daxpy ops n alpha x 0 y 1 = daxpyGen ops n alpha x 0 y 1 := by
    unfold daxpy
    rw [if_neg (by omega), if_neg ha, if_neg (by simp)]
  refine ⟨?_, ?_, ?_⟩
  · intro i h1 h2
    simp only [hbranch, daxpyGen_incx0]
    rw [if_pos ⟨h1, h2⟩]
  · intro i h1
    simp only [hbranch, daxpyGen_incx0]
    rw [if_neg (by omega)]
  · intro x' hx
    have hbranch2 : daxpy ops n alpha x' 0 y 1 = daxpyGen ops n alpha x' 0 y 1 := by
      unfold daxpy
      rw [if_neg (by omega), if_neg ha, if_neg (by simp)]
    rw [hbranch, hbranch2, daxpyGen_incx0, daxpyGen_incx0, hx]

theorem claim_C9_witness :
    ((1 : Int) ≤ 2 ∧ (1 : Int) ≠ intOps.zero) ∧
      daxpy intOps 2 1 (fun _ => 3) 0 (fun _ => 4) 1 0 = intOps.add 4 (intOps.mul 1 3) :=
  ⟨⟨by norm_num, by decide⟩,
    (claim_C9 intOps 2 1 (fun _ => 3) (fun _ => 4) (by norm_num) (by decide)).1 0
      (by norm_num) (by norm_num)⟩

/-- Argmax invariant of the unit-stride idamax scan. -/
theorem idamaxU_loop (x : Vec ℚ) (n : Int) (hn : 2 ≤ n) :
    (fun (i : Int) (s : Int × ℚ) =>
      0 ≤ s.1 ∧ s.1 < i ∧ s.2 = |x s.1| ∧
      (∀ t : Int, 0 ≤ t → t < i → |x t| ≤ s.2) ∧
      (∀ t : Int, 0 ≤ t → t < s.1 → |x t| < s.2)) (1 + ((n - 1).toNat : Int))
      (foldI (fun i (s : Int × ℚ) =>
        let absval := |x i|
        if s.2 < absval then (i, absval) else s)
      (n - 1).toNat 1 ((0, |x 0|) : Int × ℚ)) := by
  refine foldI_ind
    (fun i (s : Int × ℚ) => let absval := |x i|; if s.2 < absval then (i, absval) else s)
    (fun (i : Int) (s : Int × ℚ) =>
      0 ≤ s.1 ∧ s.1 < i ∧ s.2 = |x s.1| ∧
      (∀ t : Int, 0 ≤ t → t < i → |x t| ≤ s.2) ∧
      (∀ t : Int, 0 ≤ t → t < s.1 → |x t| < s.2))
    (n - 1).toNat 1 ((0, |x 0|) : Int × ℚ) ?_ ?_
  · refine ⟨le_rfl, by norm_num, rfl, ?_, ?_⟩
    · intro t h1 h2
      have ht : t = 0 := by omega
      rw [ht]
    · intro t h1 h2
      omega
  · intro i s hi1 hi2 hP
    obtain ⟨hb0, hbi, hd, hle, hlt⟩ := hP
    by_cases hcmp : s.2 < |x i|
    · simp only [if_pos hcmp]
      refine ⟨by omega, by omega, trivial, ?_, ?_⟩
      · intro t h1 h2
        rcases lt_or_eq_of_le (show t ≤ i by omega) with h3 | h3
        · exact le_of_lt (lt_of_le_of_lt (hle t h1 h3) hcmp)
        · rw [h3]
      · intro t h1 h2
        exact lt_of_le_of_lt (hle t h1 h2) hcmp
    · simp only [if_neg hcmp]
      push_neg at hcmp
      refine ⟨hb0, by omega, hd, ?_, hlt⟩
      intro t h1 h2
      rcases lt_or_eq_of_le (show t ≤ i by omega) with h3 | h3
      · exact hle t h1 h3
      · rw [h3]
        exact hcmp

/-- Argmax invariant of the strided idamax scan (`ix` tracks `i * incx`). -/
theorem idamaxG_loop (x : Vec ℚ) (incx : Int) (n : Int) (hn : 2 ≤ n) :
    (fun (i : Int) (s : Int × ℚ × Int) =>
      0 ≤ s.1 ∧ s.1 < i ∧ s.2.2 = i * incx ∧ s.2.1 = |x (s.1 * incx)| ∧
      (∀ t : Int, 0 ≤ t → t < i → |x (t * incx)| ≤ s.2.1) ∧
      (∀ t : Int, 0 ≤ t → t < s.1 → |x (t * incx)| < s.2.1)) (1 + ((n - 1).toNat : Int))
      (foldI (fun i (s : Int × ℚ × Int) =>
        let absval := |x s.2.2|
        let s' : Int × ℚ := if s.2.1 < absval then (i, absval) else (s.1, s.2.1)
        (s'.1, s'.2, s.2.2 + incx))
      (n - 1).toNat 1 ((0, |x 0|, incx) : Int × ℚ × Int)) := by
  refine foldI_ind
    (fun i (s : Int × ℚ × Int) =>
      let absval := |x s.2.2|
      let s' : Int × ℚ := if s.2.1 < absval then (i, absval) else (s.1, s.2.1)
      (s'.1, s'.2, s.2.2 + incx))
    (fun (i : Int) (s : Int × ℚ × Int) =>
      0 ≤ s.1 ∧ s.1 < i ∧ s.2.2 = i * incx ∧ s.2.1 = |x (s.1 * incx)| ∧
      (∀ t : Int, 0 ≤ t → t < i → |x (t * incx)| ≤ s.2.1) ∧
      (∀ t : Int, 0 ≤ t → t < s.1 → |x (t * incx)| < s.2.1))
    (n - 1).toNat 1 ((0, |x 0|, incx) : Int × ℚ × Int) ?_ ?_
  · refine ⟨le_rfl, by norm_num, by ring, by rw [zero_mul], ?_, ?_⟩
    · intro t h1 h2
      have ht : t = 0 := by omega
      rw [ht, zero_mul]
    · intro t h1 h2
      omega
  · intro i s hi1 hi2 hP
    obtain ⟨hb0, hbi, hix, hd, hle, hlt⟩ := hP
    by_cases hcmp : s.2.1 < |x s.2.2|
    · simp only [if_pos hcmp]
      refine ⟨by omega, by omega, by rw [hix]; ring, by rw [hix], ?_, ?_⟩
      · intro t h1 h2
        rcases lt_or_eq_of_le (show t ≤ i by omega) with h3 | h3
        · exact le_of_lt (lt_of_le_of_lt (hle t h1 h3) hcmp)
        · rw [h3, ← hix]
      · intro t h1 h2
        exact lt_of_le_of_lt (hle t h1 h2) hcmp
    · simp only [if_neg hcmp]
      push_neg at hcmp
      refine ⟨hb0, by omega, by rw [hix]; ring, hd, ?_, hlt⟩
      intro t h1 h2
      rcases lt_or_eq_of_le (show t ≤ i by omega) with h3 | h3
      · exact hle t h1 h3
      · rw [h3]
        rw [hix] at hcmp
        exact hcmp

/-- C8: for n >= 1 and incx >= 1, idamax returns the smallest logical index
attaining the maximum absolute value (first occurrence on ties); for n < 1
or incx <= 0 it returns the sentinel 0; and idamax(4,[1,-5,3,2],1) = 1. -/
theorem claim_C8 (n : Int) (x : Vec ℚ) (incx : Int) :
    ((n < 1 ∨ incx ≤ 0) → idamax n x incx = 0) ∧
    (1 ≤ n → 1 ≤ incx →
      0 ≤ idamax n x incx ∧ idamax n x incx < n ∧
      (∀ t : Int, 0 ≤ t → t < n → |x (t * incx)| ≤ |x (idamax n x incx * incx)|) ∧
      (∀ t : Int, 0 ≤ t → t < idamax n x incx →
        |x (t * incx)| < |x (idamax n x incx * incx)|)) ∧
    idamax 4 idamaxExX 1 = 1 := by
  refine ⟨?_, ?_, ?_⟩
  · intro h
    unfold idamax
    rw [if_pos h]
  · intro hn hincx
    by_cases h1 : n = 1
    · subst h1
      unfold idamax
      rw [if_neg (by omega), if_pos rfl]
      refine ⟨le_rfl, by norm_num, ?_, ?_⟩
      · intro t ht1 ht2
        have ht : t = 0 := by omega
        rw [ht]
      · intro t ht1 ht2
        omega
    · have hn2 : 2 ≤ n := by omega
      by_cases hu : incx = 1
      · subst hu
        have h := idamaxU_loop x n hn2
        obtain ⟨hb0, hbi, hd, hle, hlt⟩ := h
        unfold idamax
        rw [if_neg (by omega), if_neg h1, if_pos rfl]
        refine ⟨hb0, by omega, ?_, ?_⟩
        · intro t ht1 ht2
          rw [mul_one, mul_one, ← hd]
          exact hle t ht1 (by omega)
        · intro t ht1 ht2
          rw [mul_one, mul_one, ← hd]
          exact hlt t ht1 ht2
      · have h := idamaxG_loop x incx n hn2
        obtain ⟨hb0, hbi, hix, hd, hle, hlt⟩ := h
        unfold idamax
        rw [if_neg (by omega), if_neg h1, if_neg hu]
        refine ⟨hb0, by omega, ?_, ?_⟩
        · intro t ht1 ht2
          rw [← hd]
          exact hle t ht1 (by omega)
        · intro t ht1 ht2
          rw [← hd]
          exact hlt t ht1 ht2
  · decide

theorem claim_C8_witness :
    ((2 : Int) < 1 ∨ (0 : Int) ≤ 0) ∧ idamax 2 (fun _ => 1) 0 = 0 :=
  ⟨Or.inr le_rfl, (claim_C8 2 (fun _ => 1) 0).1 (Or.inr le_rfl)⟩

theorem real_sign_mul_of_pos {p : ℝ} (hp : 0 < p) (x : ℝ) :
    Real.sign (x * p) = Real.sign x := by
  rcases lt_trichotomy x 0 with h | h | h
  · rw [Real.sign_of_neg h, Real.sign_of_neg (mul_neg_of_neg_of_pos h hp)]
  · rw [h, zero_mul]
  · rw [Real.sign_of_pos h, Real.sign_of_pos (mul_pos h hp)]

/-- C10: when both inputs are nonzero, drotg computes
`r = sigma * scale * sqrt((a/scale)^2 + (b/scale)^2)` with
`scale = max(|a|,|b|)` and `sigma` the sign of the larger-magnitude input
(first conjunct, over every operation interpretation, hence bitwise);
consequently, over the reals, the sign of r is the sign of whichever input
has the larger absolute value (second conjunct). -/
theorem claim_C10 :
    (∀ (F : Type) [DecidableEq F] (R : ROps F) (a b : F),
       R.abs b ≠ R.zero → R.abs a ≠ R.zero →
       (drotg R a b).2.2.1
         = R.mul (R.mul (if R.ltb (R.abs b) (R.abs a) then R.signF a else R.signF b)
             (R.maxF (R.abs a) (R.abs b)))
             (R.sqrtF (R.add
               (R.mul (R.div a (R.maxF (R.abs a) (R.abs b)))
                 (R.div a (R.maxF (R.abs a) (R.abs b))))
               (R.mul (R.div b (R.maxF (R.abs a) (R.abs b)))
                 (R.div b (R.maxF (R.abs a) (R.abs b))))))) ∧
    (∀ a b : ℝ, a ≠ 0 → b ≠ 0 →
       Real.sign ((drotg realROps a b).2.2.1)
         = if |b| < |a| then Real.sign a else Real.sign b) := by
  constructor
  · intro F instF R a b hb ha
    simp only [drotg]
    rw [if_neg hb, if_neg ha]
  · intro a b ha hb
    have hb' : ¬(|b| = (0 : ℝ)) := abs_ne_zero.mpr hb
    have ha' : ¬(|a| = (0 : ℝ)) := abs_ne_zero.mpr ha
    have hM : 0 < max |a| |b| := lt_of_lt_of_le (abs_pos.mpr ha) (le_max_left _ _)
    have hS : 0 < Real.sqrt ((a / max |a| |b|) * (a / max |a| |b|)
        + (b / max |a| |b|) * (b / max |a| |b|)) := by
      apply Real.sqrt_pos.mpr
      have haM : a / max |a| |b| ≠ 0 := div_ne_zero ha (ne_of_gt hM)
      exact add_pos_of_pos_of_nonneg (mul_self_pos.mpr haM) (mul_self_nonneg _)
    simp only [drotg, realROps]
    rw [if_neg hb', if_neg ha']
    simp only [decide_eq_true_eq]
    rw [real_sign_mul_of_pos hS, real_sign_mul_of_pos hM]
    by_cases hab : |b| < |a|
    · rw [if_pos hab]
      rcases ha.lt_or_lt with h | h
      · rw [Real.sign_of_neg h, Real.sign_of_neg (by norm_num : (-1 : ℝ) < 0)]
      · rw [Real.sign_of_pos h, Real.sign_of_pos (by norm_num : (0 : ℝ) < 1)]
    · rw [if_neg hab]
      rcases hb.lt_or_lt with h | h
      · rw [Real.sign_of_neg h, Real.sign_of_neg (by norm_num : (-1 : ℝ) < 0)]
      · rw [Real.sign_of_pos h, Real.sign_of_pos (by norm_num : (0 : ℝ) < 1)]

/-- C4: the claim says dtrsm validates its parameters and raises on a
negative dimension or an invalid enum value; the source's dtrsm has no
validation at all (its result type here is a plain buffer because the
function contains no throw).  At `m = -1` it silently returns B unchanged,
and an invalid `uplo` value (5) is silently treated exactly like `Lower`
instead of raising. -/
theorem claim_C4 :
    (dtrsm intOps (fun a b => a / b) LeftSide Upper NoTranspose NonUnit (-1) 1 1
        (fun _ => 0) 1 (fun _ => 5) 1 = (fun _ => 5)) ∧
    (dtrsm intOps (fun a b => a / b) LeftSide 5 NoTranspose NonUnit 2 1 1
        (fun _ => 0) 2 (fun _ => 7) 2
      = dtrsm intOps (fun a b => a / b) LeftSide Lower NoTranspose NonUnit 2 1 1
        (fun _ => 0) 2 (fun _ => 7) 2) :=
  ⟨rfl, rfl⟩

/-- C2 counterexample: dgemv called with `incx = 0` (and a valid `ldA`) does
not raise: it returns successfully and performs the computation, here
overwriting `y[0] = 4` with `y[0] + alpha*x[0]*A[0] = 10`. -/
theorem claim_C2_counterexample :
    (dgemv intOps NoTranspose 1 1 1 (fun _ => 2) 1 (fun _ => 3) 0 1 (fun _ => 4) 1).map
      (fun v => v 0) = Except.ok 10 := rfl

/-- C2 (amended): dsymv, dtrmv, dtrsv, dger, dsyr and dsyr2 raise on a zero
increment (incx, and incy where taken); dgemv validates only ldA and, when
ldA is valid, always returns successfully — it performs no increment
validation and proceeds with the computation even when incx = 0 or
incy = 0. -/
theorem claim_C2_amended {F : Type} [DecidableEq F] (ops : Ops F) (fdiv : F → F → F)
    (uplo trans diag : Int) (m n : Int) (alpha beta : F) (A x y : Vec F)
    (ldA incx incy : Int) :
    (incx = 0 → (dsymv ops uplo n alpha A ldA x incx beta y incy).isOk = false) ∧
    (incy = 0 → (dsymv ops uplo n alpha A ldA x incx beta y incy).isOk = false) ∧
    (incx = 0 → (dtrmv ops uplo trans diag n A ldA x incx).isOk = false) ∧
    (incx = 0 → (dtrsv ops fdiv uplo trans diag n A ldA x incx).isOk = false) ∧
    (incx = 0 → (dger ops m n alpha x incx y incy A ldA).isOk = false) ∧
    (incy = 0 → (dger ops m n alpha x incx y incy A ldA).isOk = false) ∧
    (incx = 0 → (dsyr ops uplo n alpha x incx A ldA).isOk = false) ∧
    (incx = 0 → (dsyr2 ops uplo n alpha x incx y incy A ldA).isOk = false) ∧
    (incy = 0 → (dsyr2 ops uplo n alpha x incx y incy A ldA).isOk = false) ∧
    (max 1 m ≤ ldA →
      (dgemv ops trans m n alpha A ldA x incx beta y incy).isOk = true) := by
  refine ⟨?_, ?_, ?_, ?_, ?_, ?_, ?_, ?_, ?_, ?_⟩
  · intro h
    unfold dsymv
    by_cases h1 : uplo ≠ Upper ∧ uplo ≠ Lower
    · rw [if_pos h1]; rfl
    · rw [if_neg h1]
      by_cases h2 : n < 0
      · rw [if_pos h2]; rfl
      · rw [if_neg h2]
        by_cases h3 : ldA < max 1 n
        · rw [if_pos h3]; rfl
        · rw [if_neg h3, if_pos h]; rfl
  · intro h
    unfold dsymv
    by_cases h1 : uplo ≠ Upper ∧ uplo ≠ Lower
    · rw [if_pos h1]; rfl
    · rw [if_neg h1]
      by_cases h2 : n < 0
      · rw [if_pos h2]; rfl
      · rw [if_neg h2]
        by_cases h3 : ldA < max 1 n
        · rw [if_pos h3]; rfl
        · rw [if_neg h3]
          by_cases h4 : incx = 0
          · rw [if_pos h4]; rfl
          · rw [if_neg h4, if_pos h]; rfl
  · intro h
    unfold dtrmv
    by_cases h1 : uplo ≠ Upper ∧ uplo ≠ Lower
    · rw [if_pos h1]; rfl
    · rw [if_neg h1]
      by_cases h2 : trans ≠ NoTranspose ∧ trans ≠ Transpose ∧ trans ≠ ConjugateTranspose
      · rw [if_pos h2]; rfl
      · rw [if_neg h2]
        by_cases h3 : diag ≠ UnitDiag ∧ diag ≠ NonUnit
        · rw [if_pos h3]; rfl
        · rw [if_neg h3]
          by_cases h4 : n < 0
          · rw [if_pos h4]; rfl
          · rw [if_neg h4]
            by_cases h5 : ldA < max 1 n
            · rw [if_pos h5]; rfl
            · rw [if_neg h5, if_pos h]; rfl
  · intro h
    unfold dtrsv
    by_cases h1 : uplo ≠ Upper ∧ uplo ≠ Lower
    · rw [if_pos h1]; rfl
    · rw [if_neg h1]
      by_cases h2 : trans ≠ NoTranspose ∧ trans ≠ Transpose ∧ trans ≠ ConjugateTranspose
      · rw [if_pos h2]; rfl
      · rw [if_neg h2]
        by_cases h3 : diag ≠ UnitDiag ∧ diag ≠ NonUnit
        · rw [if_pos h3]; rfl
        · rw [if_neg h3]
          by_cases h4 : n < 0
          · rw [if_pos h4]; rfl
          · rw [if_neg h4]
            by_cases h5 : ldA < max 1 n
            · rw [if_pos h5]; rfl
            · rw [if_neg h5, if_pos h]; rfl
  · intro h
    unfold dger
    by_cases h1 : m < 0
    · rw [if_pos h1]; rfl
    · rw [if_neg h1]
      by_cases h2 : n < 0
      · rw [if_pos h2]; rfl
      · rw [if_neg h2, if_pos h]; rfl
  · intro h
    unfold dger
    by_cases h1 : m < 0
    · rw [if_pos h1]; rfl
    · rw [if_neg h1]
      by_cases h2 : n < 0
      · rw [if_pos h2]; rfl
      · rw [if_neg h2]
        by_cases h3 : incx = 0
        · rw [if_pos h3]; rfl
        · rw [if_neg h3, if_pos h]; rfl
  · intro h
    unfold dsyr
    by_cases h1 : uplo ≠ Upper ∧ uplo ≠ Lower
    · rw [if_pos h1]; rfl
    · rw [if_neg h1]
      by_cases h2 : n < 0
      · rw [if_pos h2]; rfl
      · rw [if_neg h2, if_pos h]; rfl
  · intro h
    unfold dsyr2
    by_cases h1 : uplo ≠ Upper ∧ uplo ≠ Lower
    · rw [if_pos h1]; rfl
    · rw [if_neg h1]
      by_cases h2 : n < 0
      · rw [if_pos h2]; rfl
      · rw [if_neg h2, if_pos h]; rfl
  · intro h
    unfold dsyr2
    by_cases h1 : uplo ≠ Upper ∧ uplo ≠ Lower
    · rw [if_pos h1]; rfl
    · rw [if_neg h1]
      by_cases h2 : n < 0
      · rw [if_pos h2]; rfl
      · rw [if_neg h2]
        by_cases h3 : incx = 0
        · rw [if_pos h3]; rfl
        · rw [if_neg h3, if_pos h]; rfl
  · intro h
    unfold dgemv
    rw [if_neg (by omega)]
    rfl

/-- Witness for C2 (amended): dsymv with `incx = 0` errors, while dgemv with
`incx = 0` and a valid `ldA` succeeds. -/
theorem claim_C2_amended_witness :
    ((dsymv intOps Upper 1 1 (fun _ => 1) 1 (fun _ => 1) 0 1 (fun _ => 1) 1).isOk = false) ∧
    ((dgemv intOps NoTranspose 1 1 1 (fun _ => 1) 1 (fun _ => 1) 0 1 (fun _ => 1) 1).isOk
      = true) :=
  ⟨(claim_C2_amended intOps (fun a b => a / b) Upper NoTranspose NonUnit 1 1 1 1
      (fun _ => 1) (fun _ => 1) (fun _ => 1) 1 0 1).1 rfl,
   (claim_C2_amended intOps (fun a b => a / b) Upper NoTranspose NonUnit 1 1 1 1
      (fun _ => 1) (fun _ => 1) (fun _ => 1) 1 0 1).2.2.2.2.2.2.2.2.2 le_rfl⟩

theorem foldI_zero {σ : Type} (f : Int → σ → σ) (start : Int) (s : σ) :
    foldI f 0 start s = s := rfl

/-- One column pass writing `w i` at offsets `i + j*ld`, `0 ≤ i < m`: each
cell of the column receives `w i` of its previous value, everything else is
untouched. -/
theorem rowLoop_char {F : Type} (w : Int → F → F) (m ld j : Int) (cc : Vec F) :
    (∀ i : Int, 0 ≤ i → i < m →
      foldI (fun i c2 => upd c2 (i + j * ld) (w i (c2 (i + j * ld)))) m.toNat 0 cc (i + j * ld)
        = w i (cc (i + j * ld))) ∧
    (∀ idx : Int, (∀ i : Int, 0 ≤ i → i < m → idx ≠ i + j * ld) →
      foldI (fun i c2 => upd c2 (i + j * ld) (w i (c2 (i + j * ld)))) m.toNat 0 cc idx
        = cc idx) := by
  have key := foldI_ind (fun i c2 => upd c2 (i + j * ld) (w i (c2 (i + j * ld))))
    (fun (i : Int) (c2 : Vec F) =>
      (∀ i' : Int, 0 ≤ i' → i' < i → c2 (i' + j * ld) = w i' (cc (i' + j * ld))) ∧
      (∀ idx : Int, (∀ i' : Int, 0 ≤ i' → i' < i → idx ≠ i' + j * ld) → c2 idx = cc idx))
    m.toNat 0 cc
    (by
      constructor
      · intro i' h1 h2
        exact absurd h2 (by omega)
      · intro idx _
        rfl)
    (by
      intro i c2 hi1 hi2 hP
      beta_reduce
      obtain ⟨hv, hf⟩ := hP
      constructor
      · intro i' h1 h2
        by_cases he : i' = i
        · subst he
          rw [upd_same]
          rw [hf (i' + j * ld) (fun i'' h3 h4 => by omega)]
        · rw [upd_other _ _ _ _ (by omega)]
          exact hv i' h1 (by omega)
      · intro idx hidx
        rw [upd_other _ _ _ _ (hidx i hi1 (by omega))]
        exact hf idx (fun i' h3 h4 => hidx i' h3 (by omega)))
  obtain ⟨hv, hf⟩ := key
  constructor
  · intro i h1 h2
    exact hv i h1 (by omega)
  · intro idx hidx
    exact hf idx (fun i' h3 h4 => hidx i' h3 (by omega))

/-- A full rectangular column-major double loop writing `g i j` at each cell
of the `m × n` region: the per-cell update law, plus the frame property for
every offset outside the region. -/
theorem colLoop_char {F : Type} (g : Int → Int → F → F) (m n ld : Int)
    (hldm : m ≤ ld) (hld1 : 1 ≤ ld) (C : Vec F) :
    (∀ i j : Int, 0 ≤ i → i < m → 0 ≤ j → j < n →
      foldI (fun j cc => foldI (fun i c2 => upd c2 (i + j * ld) (g i j (c2 (i + j * ld))))
          m.toNat 0 cc) n.toNat 0 C (i + j * ld)
        = g i j (C (i + j * ld))) ∧
    (∀ idx : Int, (∀ i j : Int, 0 ≤ i → i < m → 0 ≤ j → j < n → idx ≠ i + j * ld) →
      foldI (fun j cc => foldI (fun i c2 => upd c2 (i + j * ld) (g i j (c2 (i + j * ld))))
          m.toNat 0 cc) n.toNat 0 C idx = C idx) := by
  have hne : ∀ (i j i' j' : Int), 0 ≤ i → i < m → 0 ≤ i' → i' < m → j ≠ j' →
      i + j * ld ≠ i' + j' * ld := by
    intro i j i' j' h1 h2 h3 h4 h5 heq
    obtain ⟨hi, hj⟩ := flat_inj hld1 h1 (by omega) h3 (by omega) heq
    exact h5 hj
  have key := foldI_ind
    (fun j cc => foldI (fun i c2 => upd c2 (i + j * ld) (g i j (c2 (i + j * ld))))
      m.toNat 0 cc)
    (fun (j : Int) (cc : Vec F) =>
      (∀ i j' : Int, 0 ≤ i → i < m → 0 ≤ j' → j' < j →
        cc (i + j' * ld) = g i j' (C (i + j' * ld))) ∧
      (∀ idx : Int, (∀ i j' : Int, 0 ≤ i → i < m → 0 ≤ j' → j' < j → idx ≠ i + j' * ld) →
        cc idx = C idx))
    n.toNat 0 C
    (by
      constructor
      · intro i j' _ _ h3 h4
        exact absurd h4 (by omega)
      · intro idx _
        rfl)
    (by
      intro j cc hj1 hj2 hP
      beta_reduce
      obtain ⟨hv, hf⟩ := hP
      have row := rowLoop_char (fun i v => g i j v) m ld j cc
      constructor
      · intro i j' h1 h2 h3 h4
        by_cases he : j' = j
        · subst he
          rw [row.1 i h1 h2]
          rw [hf (i + j' * ld) (fun i'' j'' a b c d => (hne i'' j'' i j' a b h1 h2 (by omega)).symm)]
        · rw [row.2 (i + j' * ld) (fun i'' a b => (hne i'' j i j' a b h1 h2 (by omega)).symm)]
          exact hv i j' h1 h2 h3 (by omega)
      · intro idx hidx
        rw [row.2 idx (fun i'' a b => hidx i'' j a b hj1 (by omega))]
        exact hf idx (fun i'' j'' a b c d => hidx i'' j'' a b c (by omega)))
  obtain ⟨hv, hf⟩ := key
  constructor
  · intro i j h1 h2 h3 h4
    exact hv i j h1 h2 h3 (by omega)
  · intro idx hidx
    exact hf idx (fun i j a b c d => hidx i j a b c (by omega))

/-- C3 counterexample: dgemm with k = 0, beta = 0 is not a no-op — the
1-by-1 C holding 5 is zeroed. -/
theorem claim_C3_counterexample :
    (dgemm intOps NoTranspose NoTranspose 1 1 0 1 (fun _ => 0) 1 (fun _ => 0) 1 0
      (fun _ => 5) 1).map (fun v => v 0) = Except.ok 0 ∧ (0 : Int) ≠ 5 :=
  ⟨rfl, by decide⟩

/-- C3 (amended): a dgemm call with k = 0 (exact ring arithmetic) is a
no-op only when beta = 1 (the quick return); otherwise every element of the
m-by-n region of C is replaced by beta times its old value (zeroed when
beta = 0), and every offset outside the region is unchanged. -/
theorem claim_C3_amended {F : Type} [CommRing F] [DecidableEq F]
    (transA transB m n : Int) (alpha : F) (A : Vec F) (ldA : Int) (B : Vec F)
    (ldB : Int) (beta : F) (C C2 : Vec F) (ldC : Int)
    (h : dgemm (ringOps F) transA transB m n 0 alpha A ldA B ldB beta C ldC
      = Except.ok C2) :
    (∀ i j : Int, 0 ≤ i → i < m → 0 ≤ j → j < n →
      C2 (i + j * ldC) = beta * C (i + j * ldC)) ∧
    (∀ idx : Int, (∀ i j : Int, 0 ≤ i → i < m → 0 ≤ j → j < n → idx ≠ i + j * ldC) →
      C2 idx = C idx) ∧
    (beta = 1 → C2 = C) := by
  unfold dgemm at h
  by_cases h1 : transA ≠ NoTranspose ∧ transA ≠ Transpose ∧ transA ≠ ConjugateTranspose
  · rw [if_pos h1] at h
    exact absurd h (by simp)
  rw [if_neg h1] at h
  by_cases h2 : transB ≠ NoTranspose ∧ transB ≠ Transpose ∧ transB ≠ ConjugateTranspose
  · rw [if_pos h2] at h
    exact absurd h (by simp)
  rw [if_neg h2] at h
  by_cases h3 : m < 0
  · rw [if_pos h3] at h
    exact absurd h (by simp)
  rw [if_neg h3] at h
  by_cases h4 : n < 0
  · rw [if_pos h4] at h
    exact absurd h (by simp)
  rw [if_neg h4] at h
  rw [if_neg (lt_irrefl (0 : Int))] at h
  by_cases h6 : ldA < max 1 (if transA = NoTranspose then m else (0 : Int))
  · rw [if_pos h6] at h
    exact absurd h (by simp)
  rw [if_neg h6] at h
  by_cases h7 : ldB < max 1 (if transB = NoTranspose then (0 : Int) else n)
  · rw [if_pos h7] at h
    exact absurd h (by simp)
  rw [if_neg h7] at h
  by_cases h8 : ldC < max 1 m
  · rw [if_pos h8] at h
    exact absurd h (by simp)
  rw [if_neg h8] at h
  have h8' : max 1 m ≤ ldC := le_of_not_lt h8
  have hld1 : (1 : Int) ≤ ldC := le_trans (le_max_left 1 m) h8'
  have hldm : m ≤ ldC := le_trans (le_max_right 1 m) h8'
  by_cases h9 : m = 0 ∨ n = 0 ∨ ((alpha = (ringOps F).zero ∨ (0 : Int) = 0) ∧
      beta = (ringOps F).one)
  · rw [if_pos h9] at h
    injection h with h2
    subst h2
    refine ⟨?_, fun idx _ => rfl, fun _ => rfl⟩
    intro i j hi1 hi2 hj1 hj2
    rcases h9 with hm | hn | ⟨_, hb⟩
    · exact absurd hi2 (by omega)
    · exact absurd hj2 (by omega)
    · rw [hb]
      simp [ringOps]
  rw [if_neg h9] at h
  have hbne1 : beta ≠ (ringOps F).one := fun hb =>
    h9 (Or.inr (Or.inr ⟨Or.inr rfl, hb⟩))
  by_cases ha : alpha = (ringOps F).zero
  · rw [if_pos ha] at h
    by_cases hb : beta = (ringOps F).zero
    · rw [if_pos hb] at h
      injection h with h2
      unfold dgemmZero at h2
      subst h2
      have hc := colLoop_char (fun (_ _ : Int) (_ : F) => (ringOps F).zero)
        m n ldC hldm hld1 C
      refine ⟨?_, hc.2, fun hb1 => absurd hb1 hbne1⟩
      intro i j hi1 hi2 hj1 hj2
      exact (hc.1 i j hi1 hi2 hj1 hj2).trans (by rw [hb]; simp [ringOps])
    · rw [if_neg hb] at h
      injection h with h2
      unfold dgemmScale at h2
      subst h2
      have hc := colLoop_char (fun (_ _ : Int) (v : F) => (ringOps F).mul beta v)
        m n ldC hldm hld1 C
      exact ⟨fun i j hi1 hi2 hj1 hj2 => hc.1 i j hi1 hi2 hj1 hj2, hc.2,
        fun hb1 => absurd hb1 hbne1⟩
  rw [if_neg ha] at h
  by_cases hB : transB = NoTranspose
  · rw [if_pos hB] at h
    by_cases hA : transA = NoTranspose
    · -- A and B untransposed: the l-loop is empty, only the beta pass runs
      rw [if_pos hA] at h
      injection h with h2
      unfold dgemmNN at h2
      by_cases hb : beta = (ringOps F).zero
      · simp only [if_pos hb, Int.toNat_zero, foldI_zero] at h2
        subst h2
        have hc := colLoop_char (fun (_ _ : Int) (_ : F) => (ringOps F).zero)
          m n ldC hldm hld1 C
        refine ⟨?_, hc.2, fun hb1 => absurd hb1 hbne1⟩
        intro i j hi1 hi2 hj1 hj2
        exact (hc.1 i j hi1 hi2 hj1 hj2).trans (by rw [hb]; simp [ringOps])
      · simp only [if_neg hb, if_pos hbne1, Int.toNat_zero, foldI_zero] at h2
        subst h2
        have hc := colLoop_char (fun (_ _ : Int) (v : F) => (ringOps F).mul beta v)
          m n ldC hldm hld1 C
        exact ⟨fun i j hi1 hi2 hj1 hj2 => hc.1 i j hi1 hi2 hj1 hj2, hc.2,
          fun hb1 => absurd hb1 hbne1⟩
    · -- A transposed: per-cell write with an empty accumulation, temp = 0
      rw [if_neg hA] at h
      injection h with h2
      unfold dgemmTN at h2
      by_cases hb : beta = (ringOps F).zero
      · simp only [if_pos hb, Int.toNat_zero, foldI_zero] at h2
        subst h2
        have hc := colLoop_char
          (fun (_ _ : Int) (_ : F) => (ringOps F).mul alpha (ringOps F).zero)
          m n ldC hldm hld1 C
        refine ⟨?_, hc.2, fun hb1 => absurd hb1 hbne1⟩
        intro i j hi1 hi2 hj1 hj2
        exact (hc.1 i j hi1 hi2 hj1 hj2).trans (by rw [hb]; simp [ringOps])
      · simp only [if_neg hb, Int.toNat_zero, foldI_zero] at h2
        subst h2
        have hc := colLoop_char
          (fun (_ _ : Int) (v : F) =>
            (ringOps F).add ((ringOps F).mul alpha (ringOps F).zero)
              ((ringOps F).mul beta v))
          m n ldC hldm hld1 C
        refine ⟨?_, hc.2, fun hb1 => absurd hb1 hbne1⟩
        intro i j hi1 hi2 hj1 hj2
        exact (hc.1 i j hi1 hi2 hj1 hj2).trans (by simp [ringOps])
  · rw [if_neg hB] at h
    by_cases hA : transA = NoTranspose
    · -- B transposed, A not: again only the beta pass runs
      rw [if_pos hA] at h
      injection h with h2
      unfold dgemmNT at h2
      by_cases hb : beta = (ringOps F).zero
      · simp only [if_pos hb, Int.toNat_zero, foldI_zero] at h2
        subst h2
        have hc := colLoop_char (fun (_ _ : Int) (_ : F) => (ringOps F).zero)
          m n ldC hldm hld1 C
        refine ⟨?_, hc.2, fun hb1 => absurd hb1 hbne1⟩
        intro i j hi1 hi2 hj1 hj2
        exact (hc.1 i j hi1 hi2 hj1 hj2).trans (by rw [hb]; simp [ringOps])
      · simp only [if_neg hb, if_pos hbne1, Int.toNat_zero, foldI_zero] at h2
        subst h2
        have hc := colLoop_char (fun (_ _ : Int) (v : F) => (ringOps F).mul beta v)
          m n ldC hldm hld1 C
        exact ⟨fun i j hi1 hi2 hj1 hj2 => hc.1 i j hi1 hi2 hj1 hj2, hc.2,
          fun hb1 => absurd hb1 hbne1⟩
    · -- both transposed: per-cell write with temp = 0
      rw [if_neg hA] at h
      injection h with h2
      unfold dgemmTT at h2
      by_cases hb : beta = (ringOps F).zero
      · simp only [if_pos hb, Int.toNat_zero, foldI_zero] at h2
        subst h2
        have hc := colLoop_char
          (fun (_ _ : Int) (_ : F) => (ringOps F).mul alpha (ringOps F).zero)
          m n ldC hldm hld1 C
        refine ⟨?_, hc.2, fun hb1 => absurd hb1 hbne1⟩
        intro i j hi1 hi2 hj1 hj2
        exact (hc.1 i j hi1 hi2 hj1 hj2).trans (by rw [hb]; simp [ringOps])
      · simp only [if_neg hb, Int.toNat_zero, foldI_zero] at h2
        subst h2
        have hc := colLoop_char
          (fun (_ _ : Int) (v : F) =>
            (ringOps F).add ((ringOps F).mul alpha (ringOps F).zero)
              ((ringOps F).mul beta v))
          m n ldC hldm hld1 C
        refine ⟨?_, hc.2, fun hb1 => absurd hb1 hbne1⟩
        intro i j hi1 hi2 hj1 hj2
        exact (hc.1 i j hi1 hi2 hj1 hj2).trans (by simp [ringOps])

/-- Witness for C3 (amended): a 1-by-1 instance with beta = 3 over ℤ: the
single region cell 5 becomes 3 * 5. -/
theorem claim_C3_amended_witness :
    upd (fun _ => (5 : Int)) 0 15 (0 + 0 * 1) = 3 * 5 :=
  (claim_C3_amended NoTranspose NoTranspose 1 1 1 (fun _ => 0) 1 (fun _ => 0) 1 3
    (fun _ => 5) (upd (fun _ => 5) 0 15) 1
    (rfl : dgemm (ringOps Int) NoTranspose NoTranspose 1 1 0 1 (fun _ => 0) 1
      (fun _ => 0) 1 3 (fun _ => 5) 1 = Except.ok (upd (fun _ => 5) 0 15))).1
    0 0 le_rfl (by norm_num) le_rfl (by norm_num)

theorem claim_C10_witness :
    ((drotg realROps 1 1).2.2.1
       = realROps.mul (realROps.mul
           (if realROps.ltb (realROps.abs 1) (realROps.abs 1) then realROps.signF 1
            else realROps.signF 1)
           (realROps.maxF (realROps.abs 1) (realROps.abs 1)))
           (realROps.sqrtF (realROps.add
             (realROps.mul (realROps.div 1 (realROps.maxF (realROps.abs 1) (realROps.abs 1)))
               (realROps.div 1 (realROps.maxF (realROps.abs 1) (realROps.abs 1))))
             (realROps.mul (realROps.div 1 (realROps.maxF (realROps.abs 1) (realROps.abs 1)))
               (realROps.div 1 (realROps.maxF (realROps.abs 1) (realROps.abs 1))))))) ∧
    Real.sign ((drotg realROps 1 1).2.2.1)
      = (if |(1 : ℝ)| < |(1 : ℝ)| then Real.sign 1 else Real.sign 1) :=
  ⟨claim_C10.1 ℝ realROps 1 1 (by simp [realROps]) (by simp [realROps]),
    claim_C10.2 1 1 one_ne_zero one_ne_zero⟩

/-- One-point frame rule for a counted loop over buffers: if no in-range
iteration changes the value at `idx`, the whole loop leaves `idx` unchanged. -/
theorem foldV_frame {F : Type} (f : Int → Vec F → Vec F) (k : Nat) (start : Int)
    (s : Vec F) (idx : Int)
    (hf : ∀ (i : Int) (t : Vec F), start ≤ i → i < start + (k : Int) →
      f i t idx = t idx) :
    foldI f k start s idx = s idx :=
  foldI_inv f (fun t => t idx = s idx) k start s
    (fun i t h1 h2 hq => (hf i t h1 h2).trans hq) rfl

/-- Frame rule for the upper-triangular column loops of dsyrk: a column loop
whose column-j body writes only rows 0..j leaves every offset outside the
upper triangle unchanged. -/
theorem upperLoop_frame {F : Type} (G : Int → Vec F → Vec F) (n ldC : Int)
    (C : Vec F) (idx : Int) (hn : 0 ≤ n)
    (hG : ∀ (j : Int) (t : Vec F), 0 ≤ j → j < n →
      (∀ i : Int, 0 ≤ i → i ≤ j → idx ≠ i + j * ldC) → G j t idx = t idx)
    (hidx : ∀ i j : Int, 0 ≤ i → i ≤ j → j < n → idx ≠ i + j * ldC) :
    foldI G n.toNat 0 C idx = C idx := by
  refine foldV_frame G n.toNat 0 C idx ?_
  intro j t hj1 hj2
  exact hG j t hj1 (by omega) (fun i hi1 hi2 => hidx i j hi1 hi2 (by omega))

/-- Frame rule for the lower-triangular column loops of dsyrk: a column loop
whose column-j body writes only rows j..n-1 leaves every offset outside the
lower triangle unchanged. -/
theorem lowerLoop_frame {F : Type} (G : Int → Vec F → Vec F) (n ldC : Int)
    (C : Vec F) (idx : Int) (hn : 0 ≤ n)
    (hG : ∀ (j : Int) (t : Vec F), 0 ≤ j → j < n →
      (∀ i : Int, j ≤ i → i < n → idx ≠ i + j * ldC) → G j t idx = t idx)
    (hidx : ∀ i j : Int, 0 ≤ j → j ≤ i → i < n → idx ≠ i + j * ldC) :
    foldI G n.toNat 0 C idx = C idx := by
  refine foldV_frame G n.toNat 0 C idx ?_
  intro j t hj1 hj2
  exact hG j t hj1 (by omega) (fun i hi1 hi2 => hidx i j (by omega) hi1 hi2)

/-- The upper beta = 0 pass of dsyrk never writes outside the upper triangle. -/
theorem dsyrkZeroU_frame {F : Type} (ops : Ops F) (n : Int) (C : Vec F)
    (ldC : Int) (idx : Int) (hn : 0 ≤ n)
    (hidx : ∀ i j : Int, 0 ≤ i → i ≤ j → j < n → idx ≠ i + j * ldC) :
    dsyrkZeroU ops n C ldC idx = C idx := by
  unfold dsyrkZeroU
  refine upperLoop_frame _ n ldC C idx hn ?_ hidx
  intro j t hj1 hj2 hj3
  beta_reduce
  refine foldV_frame _ _ _ _ _ ?_
  intro i t2 hi1 hi2
  beta_reduce
  exact upd_other t2 (i + j * ldC) idx _ (hj3 i hi1 (by omega))

/-- The upper beta-scaling pass of dsyrk never writes outside the upper
triangle. -/
theorem dsyrkScaleU_frame {F : Type} (ops : Ops F) (n : Int) (beta : F)
    (C : Vec F) (ldC : Int) (idx : Int) (hn : 0 ≤ n)
    (hidx : ∀ i j : Int, 0 ≤ i → i ≤ j → j < n → idx ≠ i + j * ldC) :
    dsyrkScaleU ops n beta C ldC idx = C idx := by
  unfold dsyrkScaleU
  refine upperLoop_frame _ n ldC C idx hn ?_ hidx
  intro j t hj1 hj2 hj3
  beta_reduce
  refine foldV_frame _ _ _ _ _ ?_
  intro i t2 hi1 hi2
  beta_reduce
  exact upd_other t2 (i + j * ldC) idx _ (hj3 i hi1 (by omega))

/-- The lower beta = 0 pass of dsyrk never writes outside the lower triangle. -/
theorem dsyrkZeroL_frame {F : Type} (ops : Ops F) (n : Int) (C : Vec F)
    (ldC : Int) (idx : Int) (hn : 0 ≤ n)
    (hidx : ∀ i j : Int, 0 ≤ j → j ≤ i → i < n → idx ≠ i + j * ldC) :
    dsyrkZeroL ops n C ldC idx = C idx := by
  unfold dsyrkZeroL
  refine lowerLoop_frame _ n ldC C idx hn ?_ hidx
  intro j t hj1 hj2 hj3
  beta_reduce
  refine foldV_frame _ _ _ _ _ ?_
  intro i t2 hi1 hi2
  beta_reduce
  exact upd_other t2 (i + j * ldC) idx _ (hj3 i hi1 (by omega))

/-- The lower beta-scaling pass of dsyrk never writes outside the lower
triangle. -/
theorem dsyrkScaleL_frame {F : Type} (ops : Ops F) (n : Int) (beta : F)
    (C : Vec F) (ldC : Int) (idx : Int) (hn : 0 ≤ n)
    (hidx : ∀ i j : Int, 0 ≤ j → j ≤ i → i < n → idx ≠ i + j * ldC) :
    dsyrkScaleL ops n beta C ldC idx = C idx := by
  unfold dsyrkScaleL
  refine lowerLoop_frame _ n ldC C idx hn ?_ hidx
  intro j t hj1 hj2 hj3
  beta_reduce
  refine foldV_frame _ _ _ _ _ ?_
  intro i t2 hi1 hi2
  beta_reduce
  exact upd_other t2 (i + j * ldC) idx _ (hj3 i hi1 (by omega))

/-- The untransposed upper dsyrk kernel never writes outside the upper
triangle. -/
theorem dsyrkNU_frame {F : Type} [DecidableEq F] (ops : Ops F) (n k : Int)
    (alpha : F) (A : Vec F) (ldA : Int) (beta : F) (C : Vec F) (ldC : Int)
    (idx : Int) (hn : 0 ≤ n)
    (hidx : ∀ i j : Int, 0 ≤ i → i ≤ j → j < n → idx ≠ i + j * ldC) :
    dsyrkNU ops n k alpha A ldA beta C ldC idx = C idx := by
  unfold dsyrkNU
  refine upperLoop_frame _ n ldC C idx hn ?_ hidx
  intro j t hj1 hj2 hj3
  beta_reduce
  simp only []
  refine (foldV_frame _ _ _ _ _ ?_).trans ?_
  · intro l t2 hl1 hl2
    beta_reduce
    by_cases hA : A (j + l * ldA) ≠ ops.zero
    · rw [if_pos hA]
      refine foldV_frame _ _ _ _ _ ?_
      intro i t3 hi1 hi2
      beta_reduce
      exact upd_other t3 (i + j * ldC) idx _ (hj3 i hi1 (by omega))
    · rw [if_neg hA]
  · by_cases hb : beta = ops.zero
    · rw [if_pos hb]
      refine foldV_frame _ _ _ _ _ ?_
      intro i t2 hi1 hi2
      beta_reduce
      exact upd_other t2 (i + j * ldC) idx _ (hj3 i hi1 (by omega))
    · rw [if_neg hb]
      by_cases hb1 : beta ≠ ops.one
      · rw [if_pos hb1]
        refine foldV_frame _ _ _ _ _ ?_
        intro i t2 hi1 hi2
        beta_reduce
        exact upd_other t2 (i + j * ldC) idx _ (hj3 i hi1 (by omega))
      · rw [if_neg hb1]

/-- The untransposed lower dsyrk kernel never writes outside the lower
triangle. -/
theorem dsyrkNL_frame {F : Type} [DecidableEq F] (ops : Ops F) (n k : Int)
    (alpha : F) (A : Vec F) (ldA : Int) (beta : F) (C : Vec F) (ldC : Int)
    (idx : Int) (hn : 0 ≤ n)
    (hidx : ∀ i j : Int, 0 ≤ j → j ≤ i → i < n → idx ≠ i + j * ldC) :
    dsyrkNL ops n k alpha A ldA beta C ldC idx = C idx := by
  unfold dsyrkNL
  refine lowerLoop_frame _ n ldC C idx hn ?_ hidx
  intro j t hj1 hj2 hj3
  beta_reduce
  simp only []
  refine (foldV_frame _ _ _ _ _ ?_).trans ?_
  · intro l t2 hl1 hl2
    beta_reduce
    by_cases hA : A (j + l * ldA) ≠ ops.zero
    · rw [if_pos hA]
      refine foldV_frame _ _ _ _ _ ?_
      intro i t3 hi1 hi2
      beta_reduce
      exact upd_other t3 (i + j * ldC) idx _ (hj3 i hi1 (by omega))
    · rw [if_neg hA]
  · by_cases hb : beta = ops.zero
    · rw [if_pos hb]
      refine foldV_frame _ _ _ _ _ ?_
      intro i t2 hi1 hi2
      beta_reduce
      exact upd_other t2 (i + j * ldC) idx _ (hj3 i hi1 (by omega))
    · rw [if_neg hb]
      by_cases hb1 : beta ≠ ops.one
      · rw [if_pos hb1]
        refine foldV_frame _ _ _ _ _ ?_
        intro i t2 hi1 hi2
        beta_reduce
        exact upd_other t2 (i + j * ldC) idx _ (hj3 i hi1 (by omega))
      · rw [if_neg hb1]

/-- The transposed upper dsyrk kernel never writes outside the upper
triangle. -/
theorem dsyrkTU_frame {F : Type} [DecidableEq F] (ops : Ops F) (n k : Int)
    (alpha : F) (A : Vec F) (ldA : Int) (beta : F) (C : Vec F) (ldC : Int)
    (idx : Int) (hn : 0 ≤ n)
    (hidx : ∀ i j : Int, 0 ≤ i → i ≤ j → j < n → idx ≠ i + j * ldC) :
    dsyrkTU ops n k alpha A ldA beta C ldC idx = C idx := by
  unfold dsyrkTU
  refine upperLoop_frame _ n ldC C idx hn ?_ hidx
  intro j t hj1 hj2 hj3
  beta_reduce
  refine foldV_frame _ _ _ _ _ ?_
  intro i t2 hi1 hi2
  beta_reduce
  by_cases hb : beta = ops.zero
  · rw [if_pos hb]
    exact upd_other t2 (i + j * ldC) idx _ (hj3 i hi1 (by omega))
  · rw [if_neg hb]
    exact upd_other t2 (i + j * ldC) idx _ (hj3 i hi1 (by omega))

/-- The transposed lower dsyrk kernel never writes outside the lower
triangle. -/
theorem dsyrkTL_frame {F : Type} [DecidableEq F] (ops : Ops F) (n k : Int)
    (alpha : F) (A : Vec F) (ldA : Int) (beta : F) (C : Vec F) (ldC : Int)
    (idx : Int) (hn : 0 ≤ n)
    (hidx : ∀ i j : Int, 0 ≤ j → j ≤ i → i < n → idx ≠ i + j * ldC) :
    dsyrkTL ops n k alpha A ldA beta C ldC idx = C idx := by
  unfold dsyrkTL
  refine lowerLoop_frame _ n ldC C idx hn ?_ hidx
  intro j t hj1 hj2 hj3
  beta_reduce
  refine foldV_frame _ _ _ _ _ ?_
  intro i t2 hi1 hi2
  beta_reduce
  by_cases hb : beta = ops.zero
  · rw [if_pos hb]
    exact upd_other t2 (i + j * ldC) idx _ (hj3 i hi1 (by omega))
  · rw [if_neg hb]
    exact upd_other t2 (i + j * ldC) idx _ (hj3 i hi1 (by omega))

/-- C5: every dsyrk call that returns a buffer writes only the declared
triangle of C — with uplo = Upper every strictly-below-diagonal element of
the n-by-n region is unchanged, and with uplo = Lower every strictly-above-
diagonal element is unchanged, for every operation interpretation and all
trans, n, k, alpha, beta, A. -/
theorem claim_C5 {F : Type} [DecidableEq F] (ops : Ops F)
    (uplo trans n k : Int) (alpha : F) (A : Vec F) (ldA : Int) (beta : F)
    (C C2 : Vec F) (ldC : Int)
    (h : dsyrk ops uplo trans n k alpha A ldA beta C ldC = Except.ok C2) :
    (uplo = Upper → ∀ i j : Int, 0 ≤ j → j < i → i < n →
      C2 (i + j * ldC) = C (i + j * ldC)) ∧
    (uplo = Lower → ∀ i j : Int, 0 ≤ i → i < j → j < n →
      C2 (i + j * ldC) = C (i + j * ldC)) := by
  unfold dsyrk at h
  by_cases h1 : uplo ≠ Upper ∧ uplo ≠ Lower
  · rw [if_pos h1] at h
    exact absurd h (by simp)
  rw [if_neg h1] at h
  by_cases h2 : trans ≠ NoTranspose ∧ trans ≠ Transpose ∧ trans ≠ ConjugateTranspose
  · rw [if_pos h2] at h
    exact absurd h (by simp)
  rw [if_neg h2] at h
  by_cases h3 : n < 0
  · rw [if_pos h3] at h
    exact absurd h (by simp)
  rw [if_neg h3] at h
  by_cases h4 : k < 0
  · rw [if_pos h4] at h
    exact absurd h (by simp)
  rw [if_neg h4] at h
  by_cases h5 : ldA < max 1 (if trans = NoTranspose then n else k)
  · rw [if_pos h5] at h
    exact absurd h (by simp)
  rw [if_neg h5] at h
  by_cases h6 : ldC < max 1 n
  · rw [if_pos h6] at h
    exact absurd h (by simp)
  rw [if_neg h6] at h
  have hn : 0 ≤ n := by omega
  have hldC : n ≤ ldC := le_trans (le_max_right 1 n) (le_of_not_lt h6)
  have hldC1 : (1 : Int) ≤ ldC := le_trans (le_max_left 1 n) (le_of_not_lt h6)
  have hup : ∀ i0 j0 : Int, 0 ≤ j0 → j0 < i0 → i0 < n →
      ∀ i j : Int, 0 ≤ i → i ≤ j → j < n → i0 + j0 * ldC ≠ i + j * ldC := by
    intro i0 j0 ha hb hc i j hd he hf hne
    obtain ⟨hi, hj⟩ := flat_inj hldC1 (by omega) (by omega) hd (by omega) hne
    omega
  have hlo : ∀ i0 j0 : Int, 0 ≤ i0 → i0 < j0 → j0 < n →
      ∀ i j : Int, 0 ≤ j → j ≤ i → i < n → i0 + j0 * ldC ≠ i + j * ldC := by
    intro i0 j0 ha hb hc i j hd he hf hne
    obtain ⟨hi, hj⟩ := flat_inj hldC1 ha (by omega) (by omega) (by omega) hne
    omega
  by_cases h7 : n = 0 ∨ ((alpha = ops.zero ∨ k = 0) ∧ beta = ops.one)
  · rw [if_pos h7] at h
    injection h with hok
    subst hok
    exact ⟨fun _ i j _ _ _ => rfl, fun _ i j _ _ _ => rfl⟩
  rw [if_neg h7] at h
  by_cases h8 : alpha = ops.zero
  · rw [if_pos h8] at h
    by_cases hU : uplo = Upper
    · rw [if_pos hU] at h
      by_cases hb : beta = ops.zero
      · rw [if_pos hb] at h
        injection h with hok
        subst hok
        refine ⟨fun _ i j hj1 hj2 hj3 =>
          dsyrkZeroU_frame ops n C ldC (i + j * ldC) hn (hup i j hj1 hj2 hj3),
          fun hL => absurd (hU.symm.trans hL) (by decide)⟩
      · rw [if_neg hb] at h
        injection h with hok
        subst hok
        refine ⟨fun _ i j hj1 hj2 hj3 =>
          dsyrkScaleU_frame ops n beta C ldC (i + j * ldC) hn (hup i j hj1 hj2 hj3),
          fun hL => absurd (hU.symm.trans hL) (by decide)⟩
    · rw [if_neg hU] at h
      by_cases hb : beta = ops.zero
      · rw [if_pos hb] at h
        injection h with hok
        subst hok
        refine ⟨fun hU2 => absurd hU2 hU, fun _ i j hj1 hj2 hj3 =>
          dsyrkZeroL_frame ops n C ldC (i + j * ldC) hn (hlo i j hj1 hj2 hj3)⟩
      · rw [if_neg hb] at h
        injection h with hok
        subst hok
        refine ⟨fun hU2 => absurd hU2 hU, fun _ i j hj1 hj2 hj3 =>
          dsyrkScaleL_frame ops n beta C ldC (i + j * ldC) hn (hlo i j hj1 hj2 hj3)⟩
  rw [if_neg h8] at h
  by_cases hT : trans = NoTranspose
  · rw [if_pos hT] at h
    by_cases hU : uplo = Upper
    · rw [if_pos hU] at h
      injection h with hok
      subst hok
      refine ⟨fun _ i j hj1 hj2 hj3 =>
        dsyrkNU_frame ops n k alpha A ldA beta C ldC (i + j * ldC) hn
          (hup i j hj1 hj2 hj3),
        fun hL => absurd (hU.symm.trans hL) (by decide)⟩
    · rw [if_neg hU] at h
      injection h with hok
      subst hok
      refine ⟨fun hU2 => absurd hU2 hU, fun _ i j hj1 hj2 hj3 =>
        dsyrkNL_frame ops n k alpha A ldA beta C ldC (i + j * ldC) hn
          (hlo i j hj1 hj2 hj3)⟩
  · rw [if_neg hT] at h
    by_cases hU : uplo = Upper
    · rw [if_pos hU] at h
      injection h with hok
      subst hok
      refine ⟨fun _ i j hj1 hj2 hj3 =>
        dsyrkTU_frame ops n k alpha A ldA beta C ldC (i + j * ldC) hn
          (hup i j hj1 hj2 hj3),
        fun hL => absurd (hU.symm.trans hL) (by decide)⟩
    · rw [if_neg hU] at h
      injection h with hok
      subst hok
      refine ⟨fun hU2 => absurd hU2 hU, fun _ i j hj1 hj2 hj3 =>
        dsyrkTL_frame ops n k alpha A ldA beta C ldC (i + j * ldC) hn
          (hlo i j hj1 hj2 hj3)⟩

/-- Witness for C5: a 2-by-2 upper dsyrk call over ℤ with k = 0 and beta = 2
scales the upper triangle and leaves the below-diagonal cell C[1 + 0*2] = 7
untouched. -/
theorem claim_C5_witness :
    upd (upd (upd (fun _ => (7 : Int)) 0 14) 2 14) 3 14 (1 + 0 * 2) = 7 :=
  (claim_C5 intOps Upper NoTranspose 2 0 1 (fun _ => 1) 2 2 (fun _ => 7)
    (upd (upd (upd (fun _ => 7) 0 14) 2 14) 3 14) 2
    (rfl : dsyrk intOps Upper NoTranspose 2 0 1 (fun _ => 1) 2 2 (fun _ => 7) 2
      = Except.ok (upd (upd (upd (fun _ => 7) 0 14) 2 14) 3 14))).1 rfl 1 0
    le_rfl (by norm_num) (by norm_num)

/-- Off-diagonal reads agree for two matrices that differ only on the
diagonal: with ldA >= max(1, n), a position i + j*ldA with i, j in the order
and i different from j can never alias a diagonal offset d + d*ldA. -/
theorem offdiag_read {F : Type} (A A' : Vec F) (n ldA : Int)
    (hldA1 : 1 ≤ ldA) (hsz : n ≤ ldA)
    (hAA' : ∀ idx : Int, (∀ d : Int, 0 ≤ d → d < n → idx ≠ d + d * ldA) →
      A idx = A' idx)
    (i j : Int) (hi0 : 0 ≤ i) (hin : i < n) (hj0 : 0 ≤ j) (hjn : j < n)
    (hij : i ≠ j) : A (i + j * ldA) = A' (i + j * ldA) := by
  refine hAA' _ ?_
  intro d hd0 hdn hne
  obtain ⟨h1, h2⟩ := flat_inj hldA1 hi0 (by omega) hd0 (by omega) hne
  exact hij (h1.trans h2.symm)

/-- trmv upper NoTranspose unit path: the unit-diagonal variant reads A only
off the diagonal. -/
theorem trmvUN1_offdiag {F : Type} [DecidableEq F] (ops : Ops F) (n : Int)
    (A A' : Vec F) (ldA : Int) (x : Vec F) (hn : 0 ≤ n) (hldA1 : 1 ≤ ldA)
    (hsz : n ≤ ldA)
    (hAA' : ∀ idx : Int, (∀ d : Int, 0 ≤ d → d < n → idx ≠ d + d * ldA) →
      A idx = A' idx) :
    trmvUN1 ops false n A ldA x = trmvUN1 ops false n A' ldA x := by
  unfold trmvUN1
  refine foldI_congr _ _ n.toNat 0 x ?_
  intro j t hj1 hj2
  beta_reduce
  by_cases hx : t j ≠ ops.zero
  · simp only [if_pos hx, Bool.false_eq_true, if_false]
    refine foldI_congr _ _ j.toNat 0 t ?_
    intro i t2 hi1 hi2
    beta_reduce
    rw [offdiag_read A A' n ldA hldA1 hsz hAA' i j hi1 (by omega) (by omega)
      (by omega) (by omega)]
  · simp only [if_neg hx]

/-- trmv upper NoTranspose strided path: the unit-diagonal variant reads A
only off the diagonal. -/
theorem trmvUNg_offdiag {F : Type} [DecidableEq F] (ops : Ops F) (n : Int)
    (A A' : Vec F) (ldA : Int) (x : Vec F) (incx kx : Int) (hn : 0 ≤ n)
    (hldA1 : 1 ≤ ldA) (hsz : n ≤ ldA)
    (hAA' : ∀ idx : Int, (∀ d : Int, 0 ≤ d → d < n → idx ≠ d + d * ldA) →
      A idx = A' idx) :
    trmvUNg ops false n A ldA x incx kx = trmvUNg ops false n A' ldA x incx kx := by
  unfold trmvUNg
  refine congrArg Prod.snd (foldI_congr _ _ n.toNat 0 ((kx, x) : Int × Vec F) ?_)
  intro j s hj1 hj2
  beta_reduce
  by_cases hx : s.2 s.1 ≠ ops.zero
  · simp only [if_pos hx, Bool.false_eq_true, if_false]
    refine congrArg (Prod.mk (s.1 + incx))
      (congrArg Prod.snd (foldI_congr _ _ j.toNat 0 ((kx, s.2) : Int × Vec F) ?_))
    intro i t2 hi1 hi2
    beta_reduce
    rw [offdiag_read A A' n ldA hldA1 hsz hAA' i j hi1 (by omega) (by omega)
      (by omega) (by omega)]
  · simp only [if_neg hx]

/-- trmv lower NoTranspose unit path: the unit-diagonal variant reads A only
off the diagonal. -/
theorem trmvLN1_offdiag {F : Type} [DecidableEq F] (ops : Ops F) (n : Int)
    (A A' : Vec F) (ldA : Int) (x : Vec F) (hn : 0 ≤ n) (hldA1 : 1 ≤ ldA)
    (hsz : n ≤ ldA)
    (hAA' : ∀ idx : Int, (∀ d : Int, 0 ≤ d → d < n → idx ≠ d + d * ldA) →
      A idx = A' idx) :
    trmvLN1 ops false n A ldA x = trmvLN1 ops false n A' ldA x := by
  unfold trmvLN1
  refine foldD_congr _ _ n.toNat (n - 1) x ?_
  intro j t hj1 hj2
  beta_reduce
  by_cases hx : t j ≠ ops.zero
  · simp only [if_pos hx, Bool.false_eq_true, if_false]
    refine foldD_congr _ _ (n - 1 - j).toNat (n - 1) t ?_
    intro i t2 hi1 hi2
    beta_reduce
    rw [offdiag_read A A' n ldA hldA1 hsz hAA' i j (by omega) (by omega)
      (by omega) (by omega) (by omega)]
  · simp only [if_neg hx]

/-- trmv lower NoTranspose strided path: the unit-diagonal variant reads A
only off the diagonal. -/
theorem trmvLNg_offdiag {F : Type} [DecidableEq F] (ops : Ops F) (n : Int)
    (A A' : Vec F) (ldA : Int) (x : Vec F) (incx kx : Int) (hn : 0 ≤ n)
    (hldA1 : 1 ≤ ldA) (hsz : n ≤ ldA)
    (hAA' : ∀ idx : Int, (∀ d : Int, 0 ≤ d → d < n → idx ≠ d + d * ldA) →
      A idx = A' idx) :
    trmvLNg ops false n A ldA x incx kx = trmvLNg ops false n A' ldA x incx kx := by
  unfold trmvLNg
  refine congrArg Prod.snd (foldD_congr _ _ n.toNat (n - 1)
    ((kx + (n - 1) * incx, x) : Int × Vec F) ?_)
  intro j s hj1 hj2
  beta_reduce
  by_cases hx : s.2 s.1 ≠ ops.zero
  · simp only [if_pos hx, Bool.false_eq_true, if_false]
    refine congrArg (Prod.mk (s.1 - incx))
      (congrArg Prod.snd (foldD_congr _ _ (n - 1 - j).toNat (n - 1)
        ((kx + (n - 1) * incx, s.2) : Int × Vec F) ?_))
    intro i t2 hi1 hi2
    beta_reduce
    rw [offdiag_read A A' n ldA hldA1 hsz hAA' i j (by omega) (by omega)
      (by omega) (by omega) (by omega)]
  · simp only [if_neg hx]

/-- trmv upper Transpose unit path: the unit-diagonal variant reads A only
off the diagonal. -/
theorem trmvUT1_offdiag {F : Type} [DecidableEq F] (ops : Ops F) (n : Int)
    (A A' : Vec F) (ldA : Int) (x : Vec F) (hn : 0 ≤ n) (hldA1 : 1 ≤ ldA)
    (hsz : n ≤ ldA)
    (hAA' : ∀ idx : Int, (∀ d : Int, 0 ≤ d → d < n → idx ≠ d + d * ldA) →
      A idx = A' idx) :
    trmvUT1 ops false n A ldA x = trmvUT1 ops false n A' ldA x := by
  unfold trmvUT1
  refine foldD_congr _ _ n.toNat (n - 1) x ?_
  intro j t hj1 hj2
  beta_reduce
  simp only [Bool.false_eq_true, if_false]
  refine congrArg (upd t j) (foldD_congr _ _ j.toNat (j - 1) (t j) ?_)
  intro i d hi1 hi2
  beta_reduce
  rw [offdiag_read A A' n ldA hldA1 hsz hAA' i j (by omega) (by omega)
    (by omega) (by omega) (by omega)]

/-- trmv upper Transpose strided path: the unit-diagonal variant reads A
only off the diagonal. -/
theorem trmvUTg_offdiag {F : Type} [DecidableEq F] (ops : Ops F) (n : Int)
    (A A' : Vec F) (ldA : Int) (x : Vec F) (incx kx : Int) (hn : 0 ≤ n)
    (hldA1 : 1 ≤ ldA) (hsz : n ≤ ldA)
    (hAA' : ∀ idx : Int, (∀ d : Int, 0 ≤ d → d < n → idx ≠ d + d * ldA) →
      A idx = A' idx) :
    trmvUTg ops false n A ldA x incx kx = trmvUTg ops false n A' ldA x incx kx := by
  unfold trmvUTg
  refine congrArg Prod.snd (foldD_congr _ _ n.toNat (n - 1)
    ((kx + (n - 1) * incx, x) : Int × Vec F) ?_)
  intro j s hj1 hj2
  beta_reduce
  simp only [Bool.false_eq_true, if_false]
  refine congrArg (fun v => (s.1 - incx, upd s.2 s.1 v))
    (congrArg Prod.snd (foldD_congr _ _ j.toNat (j - 1)
      ((s.1, s.2 s.1) : Int × F) ?_))
  intro i t2 hi1 hi2
  beta_reduce
  rw [offdiag_read A A' n ldA hldA1 hsz hAA' i j (by omega) (by omega)
    (by omega) (by omega) (by omega)]

/-- trmv lower Transpose unit path: the unit-diagonal variant reads A only
off the diagonal. -/
theorem trmvLT1_offdiag {F : Type} [DecidableEq F] (ops : Ops F) (n : Int)
    (A A' : Vec F) (ldA : Int) (x : Vec F) (hn : 0 ≤ n) (hldA1 : 1 ≤ ldA)
    (hsz : n ≤ ldA)
    (hAA' : ∀ idx : Int, (∀ d : Int, 0 ≤ d → d < n → idx ≠ d + d * ldA) →
      A idx = A' idx) :
    trmvLT1 ops false n A ldA x = trmvLT1 ops false n A' ldA x := by
  unfold trmvLT1
  refine foldI_congr _ _ n.toNat 0 x ?_
  intro j t hj1 hj2
  beta_reduce
  simp only [Bool.false_eq_true, if_false]
  refine congrArg (upd t j) (foldI_congr _ _ (n - (j + 1)).toNat (j + 1) (t j) ?_)
  intro i d hi1 hi2
  beta_reduce
  rw [offdiag_read A A' n ldA hldA1 hsz hAA' i j (by omega) (by omega)
    (by omega) (by omega) (by omega)]

/-- trmv lower Transpose strided path: the unit-diagonal variant reads A
only off the diagonal. -/
theorem trmvLTg_offdiag {F : Type} [DecidableEq F] (ops : Ops F) (n : Int)
    (A A' : Vec F) (ldA : Int) (x : Vec F) (incx kx : Int) (hn : 0 ≤ n)
    (hldA1 : 1 ≤ ldA) (hsz : n ≤ ldA)
    (hAA' : ∀ idx : Int, (∀ d : Int, 0 ≤ d → d < n → idx ≠ d + d * ldA) →
      A idx = A' idx) :
    trmvLTg ops false n A ldA x incx kx = trmvLTg ops false n A' ldA x incx kx := by
  unfold trmvLTg
  refine congrArg Prod.snd (foldI_congr _ _ n.toNat 0 ((kx, x) : Int × Vec F) ?_)
  intro j s hj1 hj2
  beta_reduce
  simp only [Bool.false_eq_true, if_false]
  refine congrArg (fun v => (s.1 + incx, upd s.2 s.1 v))
    (congrArg Prod.snd (foldI_congr _ _ (n - (j + 1)).toNat (j + 1)
      ((s.1, s.2 s.1) : Int × F) ?_))
  intro i t2 hi1 hi2
  beta_reduce
  rw [offdiag_read A A' n ldA hldA1 hsz hAA' i j (by omega) (by omega)
    (by omega) (by omega) (by omega)]

/-- trsv upper NoTranspose unit path: the unit-diagonal variant reads A only
off the diagonal. -/
theorem trsvUN1_offdiag {F : Type} [DecidableEq F] (ops : Ops F)
    (fdiv : F → F → F) (n : Int) (A A' : Vec F) (ldA : Int) (x : Vec F)
    (hn : 0 ≤ n) (hldA1 : 1 ≤ ldA) (hsz : n ≤ ldA)
    (hAA' : ∀ idx : Int, (∀ d : Int, 0 ≤ d → d < n → idx ≠ d + d * ldA) →
      A idx = A' idx) :
    trsvUN1 ops fdiv false n A ldA x = trsvUN1 ops fdiv false n A' ldA x := by
  unfold trsvUN1
  refine foldD_congr _ _ n.toNat (n - 1) x ?_
  intro j t hj1 hj2
  beta_reduce
  by_cases hx : t j ≠ ops.zero
  · simp only [if_pos hx, Bool.false_eq_true, if_false]
    refine foldD_congr _ _ j.toNat (j - 1) t ?_
    intro i t2 hi1 hi2
    beta_reduce
    rw [offdiag_read A A' n ldA hldA1 hsz hAA' i j (by omega) (by omega)
      (by omega) (by omega) (by omega)]
  · simp only [if_neg hx]

/-- trsv upper NoTranspose strided path: the unit-diagonal variant reads A
only off the diagonal. -/
theorem trsvUNg_offdiag {F : Type} [DecidableEq F] (ops : Ops F)
    (fdiv : F → F → F) (n : Int) (A A' : Vec F) (ldA : Int) (x : Vec F)
    (incx kx : Int) (hn : 0 ≤ n) (hldA1 : 1 ≤ ldA) (hsz : n ≤ ldA)
    (hAA' : ∀ idx : Int, (∀ d : Int, 0 ≤ d → d < n → idx ≠ d + d * ldA) →
      A idx = A' idx) :
    trsvUNg ops fdiv false n A ldA x incx kx
      = trsvUNg ops fdiv false n A' ldA x incx kx := by
  unfold trsvUNg
  refine congrArg Prod.snd (foldD_congr _ _ n.toNat (n - 1)
    ((kx + (n - 1) * incx, x) : Int × Vec F) ?_)
  intro j s hj1 hj2
  beta_reduce
  by_cases hx : s.2 s.1 ≠ ops.zero
  · simp only [if_pos hx, Bool.false_eq_true, if_false]
    refine congrArg (Prod.mk (s.1 - incx))
      (congrArg Prod.snd (foldD_congr _ _ j.toNat (j - 1)
        ((s.1, s.2) : Int × Vec F) ?_))
    intro i t2 hi1 hi2
    beta_reduce
    rw [offdiag_read A A' n ldA hldA1 hsz hAA' i j (by omega) (by omega)
      (by omega) (by omega) (by omega)]
  · simp only [if_neg hx]

/-- trsv lower NoTranspose unit path: the unit-diagonal variant reads A only
off the diagonal. -/
theorem trsvLN1_offdiag {F : Type} [DecidableEq F] (ops : Ops F)
    (fdiv : F → F → F) (n : Int) (A A' : Vec F) (ldA : Int) (x : Vec F)
    (hn : 0 ≤ n) (hldA1 : 1 ≤ ldA) (hsz : n ≤ ldA)
    (hAA' : ∀ idx : Int, (∀ d : Int, 0 ≤ d → d < n → idx ≠ d + d * ldA) →
      A idx = A' idx) :
    trsvLN1 ops fdiv false n A ldA x = trsvLN1 ops fdiv false n A' ldA x := by
  unfold trsvLN1
  refine foldI_congr _ _ n.toNat 0 x ?_
  intro j t hj1 hj2
  beta_reduce
  by_cases hx : t j ≠ ops.zero
  · simp only [if_pos hx, Bool.false_eq_true, if_false]
    refine foldI_congr _ _ (n - (j + 1)).toNat (j + 1) t ?_
    intro i t2 hi1 hi2
    beta_reduce
    rw [offdiag_read A A' n ldA hldA1 hsz hAA' i j (by omega) (by omega)
      (by omega) (by omega) (by omega)]
  · simp only [if_neg hx]

/-- trsv lower NoTranspose strided path: the unit-diagonal variant reads A
only off the diagonal. -/
theorem trsvLNg_offdiag {F : Type} [DecidableEq F] (ops : Ops F)
    (fdiv : F → F → F) (n : Int) (A A' : Vec F) (ldA : Int) (x : Vec F)
    (incx kx : Int) (hn : 0 ≤ n) (hldA1 : 1 ≤ ldA) (hsz : n ≤ ldA)
    (hAA' : ∀ idx : Int, (∀ d : Int, 0 ≤ d → d < n → idx ≠ d + d * ldA) →
      A idx = A' idx) :
    trsvLNg ops fdiv false n A ldA x incx kx
      = trsvLNg ops fdiv false n A' ldA x incx kx := by
  unfold trsvLNg
  refine congrArg Prod.snd (foldI_congr _ _ n.toNat 0 ((kx, x) : Int × Vec F) ?_)
  intro j s hj1 hj2
  beta_reduce
  by_cases hx : s.2 s.1 ≠ ops.zero
  · simp only [if_pos hx, Bool.false_eq_true, if_false]
    refine congrArg (Prod.mk (s.1 + incx))
      (congrArg Prod.snd (foldI_congr _ _ (n - (j + 1)).toNat (j + 1)
        ((s.1, s.2) : Int × Vec F) ?_))
    intro i t2 hi1 hi2
    beta_reduce
    rw [offdiag_read A A' n ldA hldA1 hsz hAA' i j (by omega) (by omega)
      (by omega) (by omega) (by omega)]
  · simp only [if_neg hx]

/-- trsv upper Transpose unit path: the unit-diagonal variant reads A only
off the diagonal. -/
theorem trsvUT1_offdiag {F : Type} [DecidableEq F] (ops : Ops F)
    (fdiv : F → F → F) (n : Int) (A A' : Vec F) (ldA : Int) (x : Vec F)
    (hn : 0 ≤ n) (hldA1 : 1 ≤ ldA) (hsz : n ≤ ldA)
    (hAA' : ∀ idx : Int, (∀ d : Int, 0 ≤ d → d < n → idx ≠ d + d * ldA) →
      A idx = A' idx) :
    trsvUT1 ops fdiv false n A ldA x = trsvUT1 ops fdiv false n A' ldA x := by
  unfold trsvUT1
  refine foldI_congr _ _ n.toNat 0 x ?_
  intro j t hj1 hj2
  beta_reduce
  simp only [Bool.false_eq_true, if_false]
  refine congrArg (upd t j) (foldI_congr _ _ j.toNat 0 (t j) ?_)
  intro i d hi1 hi2
  beta_reduce
  rw [offdiag_read A A' n ldA hldA1 hsz hAA' i j hi1 (by omega) (by omega)
    (by omega) (by omega)]

/-- trsv upper Transpose strided path: the unit-diagonal variant reads A
only off the diagonal. -/
theorem trsvUTg_offdiag {F : Type} [DecidableEq F] (ops : Ops F)
    (fdiv : F → F → F) (n : Int) (A A' : Vec F) (ldA : Int) (x : Vec F)
    (incx kx : Int) (hn : 0 ≤ n) (hldA1 : 1 ≤ ldA) (hsz : n ≤ ldA)
    (hAA' : ∀ idx : Int, (∀ d : Int, 0 ≤ d → d < n → idx ≠ d + d * ldA) →
      A idx = A' idx) :
    trsvUTg ops fdiv false n A ldA x incx kx
      = trsvUTg ops fdiv false n A' ldA x incx kx := by
  unfold trsvUTg
  refine congrArg Prod.snd (foldI_congr _ _ n.toNat 0 ((kx, x) : Int × Vec F) ?_)
  intro j s hj1 hj2
  beta_reduce
  simp only [Bool.false_eq_true, if_false]
  refine congrArg (fun v => (s.1 + incx, upd s.2 s.1 v))
    (congrArg Prod.snd (foldI_congr _ _ j.toNat 0
      ((kx, s.2 s.1) : Int × F) ?_))
  intro i t2 hi1 hi2
  beta_reduce
  rw [offdiag_read A A' n ldA hldA1 hsz hAA' i j hi1 (by omega) (by omega)
    (by omega) (by omega)]

/-- trsv lower Transpose unit path: the unit-diagonal variant reads A only
off the diagonal. -/
theorem trsvLT1_offdiag {F : Type} [DecidableEq F] (ops : Ops F)
    (fdiv : F → F → F) (n : Int) (A A' : Vec F) (ldA : Int) (x : Vec F)
    (hn : 0 ≤ n) (hldA1 : 1 ≤ ldA) (hsz : n ≤ ldA)
    (hAA' : ∀ idx : Int, (∀ d : Int, 0 ≤ d → d < n → idx ≠ d + d * ldA) →
      A idx = A' idx) :
    trsvLT1 ops fdiv false n A ldA x = trsvLT1 ops fdiv false n A' ldA x := by
  unfold trsvLT1
  refine foldD_congr _ _ n.toNat (n - 1) x ?_
  intro j t hj1 hj2
  beta_reduce
  simp only [Bool.false_eq_true, if_false]
  refine congrArg (upd t j) (foldD_congr _ _ (n - 1 - j).toNat (n - 1) (t j) ?_)
  intro i d hi1 hi2
  beta_reduce
  rw [offdiag_read A A' n ldA hldA1 hsz hAA' i j (by omega) (by omega)
    (by omega) (by omega) (by omega)]

/-- trsv lower Transpose strided path: the unit-diagonal variant reads A
only off the diagonal. -/
theorem trsvLTg_offdiag {F : Type} [DecidableEq F] (ops : Ops F)
    (fdiv : F → F → F) (n : Int) (A A' : Vec F) (ldA : Int) (x : Vec F)
    (incx kx : Int) (hn : 0 ≤ n) (hldA1 : 1 ≤ ldA) (hsz : n ≤ ldA)
    (hAA' : ∀ idx : Int, (∀ d : Int, 0 ≤ d → d < n → idx ≠ d + d * ldA) →
      A idx = A' idx) :
    trsvLTg ops fdiv false n A ldA x incx kx
      = trsvLTg ops fdiv false n A' ldA x incx kx := by
  unfold trsvLTg
  refine congrArg Prod.snd (foldD_congr _ _ n.toNat (n - 1)
    ((kx + (n - 1) * incx, x) : Int × Vec F) ?_)
  intro j s hj1 hj2
  beta_reduce
  simp only [Bool.false_eq_true, if_false]
  refine congrArg (fun v => (s.1 - incx, upd s.2 s.1 v))
    (congrArg Prod.snd (foldD_congr _ _ (n - 1 - j).toNat (n - 1)
      ((kx + (n - 1) * incx, s.2 s.1) : Int × F) ?_))
  intro i t2 hi1 hi2
  beta_reduce
  rw [offdiag_read A A' n ldA hldA1 hsz hAA' i j (by omega) (by omega)
    (by omega) (by omega) (by omega)]

/-- C6: for dtrmv and dtrsv called with diag = Unit, the stored diagonal
entries A[j + j*ldA] are never read: two calls identical except that their A
arguments differ only on the diagonal return identical results, on every
code path and for every operation interpretation. -/
theorem claim_C6 {F : Type} [DecidableEq F] (ops : Ops F) (fdiv : F → F → F)
    (uplo trans : Int) (n : Int) (A A' : Vec F) (ldA : Int) (x : Vec F)
    (incx : Int)
    (hAA' : ∀ idx : Int, (∀ d : Int, 0 ≤ d → d < n → idx ≠ d + d * ldA) →
      A idx = A' idx) :
    dtrmv ops uplo trans UnitDiag n A ldA x incx
      = dtrmv ops uplo trans UnitDiag n A' ldA x incx ∧
    dtrsv ops fdiv uplo trans UnitDiag n A ldA x incx
      = dtrsv ops fdiv uplo trans UnitDiag n A' ldA x incx := by
  constructor
  · unfold dtrmv
    by_cases h1 : uplo ≠ Upper ∧ uplo ≠ Lower
    · rw [if_pos h1, if_pos h1]
    rw [if_neg h1, if_neg h1]
    by_cases h2 : trans ≠ NoTranspose ∧ trans ≠ Transpose ∧ trans ≠ ConjugateTranspose
    · rw [if_pos h2, if_pos h2]
    rw [if_neg h2, if_neg h2]
    by_cases h3 : UnitDiag ≠ UnitDiag ∧ UnitDiag ≠ NonUnit
    · rw [if_pos h3, if_pos h3]
    rw [if_neg h3, if_neg h3]
    by_cases h4 : n < 0
    · rw [if_pos h4, if_pos h4]
    rw [if_neg h4, if_neg h4]
    by_cases h5 : ldA < max 1 n
    · rw [if_pos h5, if_pos h5]
    rw [if_neg h5, if_neg h5]
    by_cases h6 : incx = 0
    · rw [if_pos h6, if_pos h6]
    rw [if_neg h6, if_neg h6]
    by_cases h7 : n = 0
    · rw [if_pos h7, if_pos h7]
    rw [if_neg h7, if_neg h7]
    have hn : 0 ≤ n := by omega
    have hldA1 : (1 : Int) ≤ ldA := le_trans (le_max_left 1 n) (le_of_not_lt h5)
    have hsz : n ≤ ldA := le_trans (le_max_right 1 n) (le_of_not_lt h5)
    by_cases hT : trans = NoTranspose
    · rw [if_pos hT, if_pos hT]
      by_cases hU : uplo = Upper
      · rw [if_pos hU, if_pos hU]
        by_cases hI : incx = 1
        · rw [if_pos hI, if_pos hI]
          exact congrArg Except.ok (trmvUN1_offdiag ops n A A' ldA x hn hldA1 hsz hAA')
        · rw [if_neg hI, if_neg hI]
          exact congrArg Except.ok
            (trmvUNg_offdiag ops n A A' ldA x incx _ hn hldA1 hsz hAA')
      · rw [if_neg hU, if_neg hU]
        by_cases hI : incx = 1
        · rw [if_pos hI, if_pos hI]
          exact congrArg Except.ok (trmvLN1_offdiag ops n A A' ldA x hn hldA1 hsz hAA')
        · rw [if_neg hI, if_neg hI]
          exact congrArg Except.ok
            (trmvLNg_offdiag ops n A A' ldA x incx _ hn hldA1 hsz hAA')
    · rw [if_neg hT, if_neg hT]
      by_cases hU : uplo = Upper
      · rw [if_pos hU, if_pos hU]
        by_cases hI : incx = 1
        · rw [if_pos hI, if_pos hI]
          exact congrArg Except.ok (trmvUT1_offdiag ops n A A' ldA x hn hldA1 hsz hAA')
        · rw [if_neg hI, if_neg hI]
          exact congrArg Except.ok
            (trmvUTg_offdiag ops n A A' ldA x incx _ hn hldA1 hsz hAA')
      · rw [if_neg hU, if_neg hU]
        by_cases hI : incx = 1
        · rw [if_pos hI, if_pos hI]
          exact congrArg Except.ok (trmvLT1_offdiag ops n A A' ldA x hn hldA1 hsz hAA')
        · rw [if_neg hI, if_neg hI]
          exact congrArg Except.ok
            (trmvLTg_offdiag ops n A A' ldA x incx _ hn hldA1 hsz hAA')
  · unfold dtrsv
    by_cases h1 : uplo ≠ Upper ∧ uplo ≠ Lower
    · rw [if_pos h1, if_pos h1]
    rw [if_neg h1, if_neg h1]
    by_cases h2 : trans ≠ NoTranspose ∧ trans ≠ Transpose ∧ trans ≠ ConjugateTranspose
    · rw [if_pos h2, if_pos h2]
    rw [if_neg h2, if_neg h2]
    by_cases h3 : UnitDiag ≠ UnitDiag ∧ UnitDiag ≠ NonUnit
    · rw [if_pos h3, if_pos h3]
    rw [if_neg h3, if_neg h3]
    by_cases h4 : n < 0
    · rw [if_pos h4, if_pos h4]
    rw [if_neg h4, if_neg h4]
    by_cases h5 : ldA < max 1 n
    · rw [if_pos h5, if_pos h5]
    rw [if_neg h5, if_neg h5]
    by_cases h6 : incx = 0
    · rw [if_pos h6, if_pos h6]
    rw [if_neg h6, if_neg h6]
    by_cases h7 : n = 0
    · rw [if_pos h7, if_pos h7]
    rw [if_neg h7, if_neg h7]
    have hn : 0 ≤ n := by omega
    have hldA1 : (1 : Int) ≤ ldA := le_trans (le_max_left 1 n) (le_of_not_lt h5)
    have hsz : n ≤ ldA := le_trans (le_max_right 1 n) (le_of_not_lt h5)
    by_cases hT : trans = NoTranspose
    · rw [if_pos hT, if_pos hT]
      by_cases hU : uplo = Upper
      · rw [if_pos hU, if_pos hU]
        by_cases hI : incx = 1
        · rw [if_pos hI, if_pos hI]
          exact congrArg Except.ok
            (trsvUN1_offdiag ops fdiv n A A' ldA x hn hldA1 hsz hAA')
        · rw [if_neg hI, if_neg hI]
          exact congrArg Except.ok
            (trsvUNg_offdiag ops fdiv n A A' ldA x incx _ hn hldA1 hsz hAA')
      · rw [if_neg hU, if_neg hU]
        by_cases hI : incx = 1
        · rw [if_pos hI, if_pos hI]
          exact congrArg Except.ok
            (trsvLN1_offdiag ops fdiv n A A' ldA x hn hldA1 hsz hAA')
        · rw [if_neg hI, if_neg hI]
          exact congrArg Except.ok
            (trsvLNg_offdiag ops fdiv n A A' ldA x incx _ hn hldA1 hsz hAA')
    · rw [if_neg hT, if_neg hT]
      by_cases hU : uplo = Upper
      · rw [if_pos hU, if_pos hU]
        by_cases hI : incx = 1
        · rw [if_pos hI, if_pos hI]
          exact congrArg Except.ok
            (trsvUT1_offdiag ops fdiv n A A' ldA x hn hldA1 hsz hAA')
        · rw [if_neg hI, if_neg hI]
          exact congrArg Except.ok
            (trsvUTg_offdiag ops fdiv n A A' ldA x incx _ hn hldA1 hsz hAA')
      · rw [if_neg hU, if_neg hU]
        by_cases hI : incx = 1
        · rw [if_pos hI, if_pos hI]
          exact congrArg Except.ok
            (trsvLT1_offdiag ops fdiv n A A' ldA x hn hldA1 hsz hAA')
        · rw [if_neg hI, if_neg hI]
          exact congrArg Except.ok
            (trsvLTg_offdiag ops fdiv n A A' ldA x incx _ hn hldA1 hsz hAA')

/-- Witness for C6: a 2-by-2 unit-diagonal instance over ℤ whose two A
buffers agree everywhere except at the diagonal offsets 0 and 3. -/
theorem claim_C6_witness :
    (dtrmv intOps Upper NoTranspose UnitDiag 2 (fun _ => 1) 2 (fun _ => 1) 1
      = dtrmv intOps Upper NoTranspose UnitDiag 2
          (upd (upd (fun _ => 1) 0 99) 3 99) 2 (fun _ => 1) 1) ∧
    (dtrsv intOps (fun a b => a / b) Upper NoTranspose UnitDiag 2 (fun _ => 1) 2
      (fun _ => 1) 1
      = dtrsv intOps (fun a b => a / b) Upper NoTranspose UnitDiag 2
          (upd (upd (fun _ => 1) 0 99) 3 99) 2 (fun _ => 1) 1) :=
  claim_C6 intOps (fun a b => a / b) Upper NoTranspose 2 (fun _ => 1)
    (upd (upd (fun _ => 1) 0 99) 3 99) 2 (fun _ => 1) 1 (by
      intro idx hid
      have h0 : idx ≠ 0 := by simpa using hid 0 (by norm_num) (by norm_num)
      have h3 : idx ≠ 3 := by simpa using hid 1 (by norm_num) (by norm_num)
      rw [upd_other _ _ _ _ h3, upd_other _ _ _ _ h0])

end Blas
